import Mathlib

/-!
Verification of the Dearly server (Express + Firebase Realtime Database backend).

This file gives a shallow embedding, in Lean 4, of the route handlers and the
scheduled-email job that the specification describes:

* secure-token generation, lookup, auto-renewal and revocation for letters
  (`src/api/letters.js`),
* security-answer hashing and validation (`src/api/letters.js`),
* the letter update route with its write-once reaction and the
  scheduled-date validation (`src/api/letters.js`, `src/api/letter-email.js`),
* the mark-all-notifications-read route (`src/api/notifications.js`),
* the scheduled-email polling loop, for both the in-process cron job
  (`src/jobs/emailScheduler.js`) and the Vercel cron HTTP handler.

JavaScript semantics that matter to the handlers (string truthiness,
`String.prototype.trim`, `toLowerCase`, `replace(/\s+/g, ' ')`, strict
equality against `null`, millisecond date arithmetic) are modelled explicitly.
Timestamps are modelled as integer milliseconds since the epoch; the code's
ISO-8601 strings are in order-preserving bijection with these.  The Firebase
tree is modelled by association lists keyed by the database key, where a
`set` at a fresh key is a `cons` and an `update`/`remove` at a key rewrites or
drops the entries with that key.  SHA-256 is implemented in full so that
hashing claims are settled against the real digest function.
-/

set_option maxRecDepth 100000

namespace Dearly

/-! ## JavaScript string primitives -/

/-- Whitespace test matching the characters `\s` recognises in the ASCII
range (space, tab, newline, carriage return, vertical tab, form feed). -/
def jsIsSpace (c : Char) : Bool :=
  " \t\n\r\x0b\x0c".data.contains c

/-- Drop leading and trailing whitespace from a character list, as
`String.prototype.trim` does. -/
def trimChars (l : List Char) : List Char :=
  ((l.dropWhile jsIsSpace).reverse.dropWhile jsIsSpace).reverse

/-- Model of `String.prototype.trim`. -/
def jsTrim (s : String) : String :=
  ⟨trimChars s.data⟩

/-- Model of `String.prototype.toLowerCase` (ASCII case folding). -/
def jsToLower (s : String) : String :=
  ⟨s.data.map Char.toLower⟩

theorem length_dropWhile_le (p : Char → Bool) (l : List Char) :
    (l.dropWhile p).length ≤ l.length := by
  induction l with
  | nil => simp [List.dropWhile]
  | cons a t ih =>
    simp only [List.dropWhile]
    cases p a
    · simp
    · simpa using Nat.le_succ_of_le ih

/-- Worker for `collapseWs`: the flag records whether the previous character
was whitespace (its space has already been emitted). -/
def collapseWsAux : Bool → List Char → List Char
  | _, [] => []
  | prevWs, c :: rest =>
    if jsIsSpace c then
      if prevWs then collapseWsAux true rest
      else ' ' :: collapseWsAux true rest
    else c :: collapseWsAux false rest

/-- Model of `replace(/\s+/g, ' ')`: every maximal run of whitespace becomes
a single space. -/
def collapseWs (l : List Char) : List Char :=
  collapseWsAux false l

/-- Truthiness of an optional string: `undefined`/`null` and the empty string
are falsy, every other string is truthy. -/
def jsTruthyStr : Option String → Bool
  | none => false
  | some s => s != ""

/-- Model of the JavaScript idiom `s || d` for an optional string `s` and a
default `d`. -/
def jsOrD (s : Option String) (d : String) : String :=
  match s with
  | none => d
  | some v => if v = "" then d else v

/-- Normalisation applied by `hashAnswer` in `src/api/letters.js`:
`String(answer).trim().toLowerCase().replace(/\s+/g, ' ')`. -/
def normalizeAnswer (s : String) : String :=
  ⟨collapseWs (jsToLower (jsTrim s)).data⟩

/-! ## SHA-256

`crypto.createHash('sha256').update(m).digest('hex')` implemented from the
FIPS 180-4 algorithm on byte lists (bytes and 32-bit words are `Nat`s kept
below their width by explicit `% 2^32`). -/

def w32 : Nat := 4294967296

def rotr32 (n x : Nat) : Nat :=
  ((x >>> n) ||| (x <<< (32 - n))) % w32

def smallSigma0 (x : Nat) : Nat :=
  (rotr32 7 x) ^^^ (rotr32 18 x) ^^^ (x >>> 3)

def smallSigma1 (x : Nat) : Nat :=
  (rotr32 17 x) ^^^ (rotr32 19 x) ^^^ (x >>> 10)

def bigSigma0 (x : Nat) : Nat :=
  (rotr32 2 x) ^^^ (rotr32 13 x) ^^^ (rotr32 22 x)

def bigSigma1 (x : Nat) : Nat :=
  (rotr32 6 x) ^^^ (rotr32 11 x) ^^^ (rotr32 25 x)

def sha256K : List Nat :=
  [1116352408, 1899447441, 3049323471, 3921009573, 961987163,
   1508970993, 2453635748, 2870763221, 3624381080, 310598401,
   607225278, 1426881987, 1925078388, 2162078206, 2614888103,
   3248222580, 3835390401, 4022224774, 264347078, 604807628,
   770255983, 1249150122, 1555081692, 1996064986, 2554220882,
   2821834349, 2952996808, 3210313671, 3336571891, 3584528711,
   113926993, 338241895, 666307205, 773529912, 1294757372,
   1396182291, 1695183700, 1986661051, 2177026350, 2456956037,
   2730485921, 2820302411, 3259730800, 3345764771, 3516065817,
   3600352804, 4094571909, 275423344, 430227734, 506948616,
   659060556, 883997877, 958139571, 1322822218, 1537002063,
   1747873779, 1955562222, 2024104815, 2227730452, 2361852424,
   2428436474, 2756734187, 3204031479, 3329325298]

def sha256H0 : List Nat :=
  [1779033703, 3144134277, 1013904242, 2773480762,
   1359893119, 2600822924, 528734635, 1541459225]

/-- Append the `0x80` byte, zero padding and the 64-bit big-endian bit
length. -/
def padMessage (msg : List Nat) : List Nat :=
  let len := msg.length
  let zeros := (119 - len % 64) % 64
  msg ++ [0x80] ++ List.replicate zeros 0 ++
    (List.range 8).map (fun i => ((8 * len) >>> (8 * (7 - i))) &&& 255)

/-- Split off the first `n` bytes. -/
def splitBytes : Nat → List Nat → List Nat × List Nat
  | 0, l => ([], l)
  | _ + 1, [] => ([], [])
  | n + 1, b :: rest =>
    let r := splitBytes n rest
    (b :: r.1, r.2)

/-- Cut the padded message into 64-byte blocks (`fuel` bounds the number of
iterations; `l.length` always suffices). -/
def chunks64Go : Nat → List Nat → List (List Nat)
  | 0, _ => []
  | _ + 1, [] => []
  | fuel + 1, b :: rest =>
    let s := splitBytes 64 (b :: rest)
    s.1 :: chunks64Go fuel s.2

def chunks64 (l : List Nat) : List (List Nat) :=
  chunks64Go l.length l

/-- The first 16 words of the message schedule, big-endian from the block's
bytes. -/
def wordsOf (block : List Nat) : List Nat :=
  (List.range 16).map (fun i =>
    (block.getD (4 * i) 0) <<< 24 + (block.getD (4 * i + 1) 0) <<< 16 +
    (block.getD (4 * i + 2) 0) <<< 8 + block.getD (4 * i + 3) 0)

/-- Extend the 16-word schedule to 64 words. -/
def extendSchedule (w : List Nat) : List Nat :=
  (List.range 48).foldl
    (fun acc _ =>
      let n := acc.length
      acc ++ [(smallSigma1 (acc.getD (n - 2) 0) + acc.getD (n - 7) 0 +
               smallSigma0 (acc.getD (n - 15) 0) + acc.getD (n - 16) 0) % w32])
    w

def compressRound (k w : Nat) (st : List Nat) : List Nat :=
  match st with
  | [a, b, c, d, e, f, g, h] =>
    let ch := (e &&& f) ^^^ ((4294967295 - e) &&& g)
    let maj := (a &&& b) ^^^ (a &&& c) ^^^ (b &&& c)
    let t1 := (h + bigSigma1 e + ch + k + w) % w32
    let t2 := (bigSigma0 a + maj) % w32
    [(t1 + t2) % w32, a, b, c, (d + t1) % w32, e, f, g]
  | st => st

def compressBlock (h : List Nat) (block : List Nat) : List Nat :=
  let w := extendSchedule (wordsOf block)
  let st := (List.range 64).foldl
    (fun st t => compressRound (sha256K.getD t 0) (w.getD t 0) st) h
  (h.zip st).map (fun p => (p.1 + p.2) % w32)

def sha256Words (msg : List Nat) : List Nat :=
  (chunks64 (padMessage msg)).foldl compressBlock sha256H0

def hexDigit (n : Nat) : Char :=
  if n < 10 then Char.ofNat (48 + n) else Char.ofNat (87 + n)

def wordToHex (x : Nat) : List Char :=
  (List.range 8).map (fun i => hexDigit ((x >>> (4 * (7 - i))) &&& 15))

def sha256hexBytes (msg : List Nat) : String :=
  ⟨((sha256Words msg).map wordToHex).flatten⟩

/-- UTF-8 encoding of one character. -/
def utf8Encode (c : Char) : List Nat :=
  let n := c.toNat
  if n < 0x80 then [n]
  else if n < 0x800 then
    [0xC0 ||| (n >>> 6), 0x80 ||| (n &&& 0x3F)]
  else if n < 0x10000 then
    [0xE0 ||| (n >>> 12), 0x80 ||| ((n >>> 6) &&& 0x3F), 0x80 ||| (n &&& 0x3F)]
  else
    [0xF0 ||| (n >>> 18), 0x80 ||| ((n >>> 12) &&& 0x3F),
     0x80 ||| ((n >>> 6) &&& 0x3F), 0x80 ||| (n &&& 0x3F)]

def strBytes (s : String) : List Nat :=
  (s.data.map utf8Encode).flatten

/-- Hex SHA-256 digest of a string, as `crypto` computes it. -/
def sha256hex (s : String) : String :=
  sha256hexBytes (strBytes s)

/-- Model of `hashAnswer` in `src/api/letters.js`: `null` for a falsy answer,
otherwise the hex SHA-256 digest of the normalised answer. -/
def hashAnswer (answer : String) : Option String :=
  if answer = "" then none else some (sha256hex (normalizeAnswer answer))

/-! ## Data model -/

/-- Values of the loosely typed `read` field of a notification record: the
database may hold a boolean, a string or a number, or the field may be
absent. -/
inductive JsVal where
  | bool (b : Bool)
  | str (s : String)
  | num (n : Int)
  | undef
deriving DecidableEq, Repr

/-- A date-like request value: its JavaScript truthiness, and the instant it
parses to under `new Date(...)` (`none` when the parse is `Invalid Date`). -/
structure JsDate where
  truthy : Bool
  parsed : Option Int
deriving DecidableEq, Repr

/-- `securityConfig` of a letter, after answers were hashed at creation. -/
structure SecurityConfig where
  question : Option String
  correctAnswerHash : Option String
  correctDateHash : Option String
deriving DecidableEq, Repr

/-- A letter record under `users/{userId}/letters/{letterId}`, restricted to
the fields the verified routes read or write. -/
structure Letter where
  content : String
  receiverEmail : String
  receiverName : String
  status : String
  readAt : Option Int
  createdAt : Int
  updatedAt : Int
  introductory : Option String
  mainBody : Option String
  closing : Option String
  securityType : Option String
  securityConfig : Option SecurityConfig
  accessToken : Option String
  shareableLink : Option String
  reaction : Option String
  reactionSubmittedAt : Option Int
  emailSent : Option Bool
  emailSentTo : Option String
  emailSentAt : Option Int
  emailScheduled : Option Bool
  scheduledDateTime : Option JsDate
  userId : Option String
deriving DecidableEq, Repr

/-- A notification record under `users/{userId}/notifications/{id}`. -/
structure Notification where
  ntype : String
  letterId : Option String
  letterTitle : Option String
  message : String
  read : JsVal
  readAt : Option Int
  createdAt : Int
deriving DecidableEq, Repr

/-- A token record under `letterTokens/{token}`. -/
structure TokenRecord where
  userId : String
  letterId : String
  createdAt : Int
  expiresAt : Option Int
  renewalCount : Option Nat
  isActive : Option Bool
  lastRenewedAt : Option Int
  accessLog : List Int
deriving DecidableEq, Repr

/-- A record under `scheduledEmails/{id}`.  `scheduledDateTime` is the parse
of the stored date string (`none` when missing or invalid), `mailOptions` is
kept opaque. -/
structure ScheduledEmail where
  recipientEmail : String
  recipientName : String
  senderName : String
  letterTitle : String
  shareableLink : String
  mailOptions : String
  scheduledDateTime : Option Int
  status : String
  createdAt : Option Int
  updatedAt : Option Int
  error : Option String
  sendingStartedAt : Option Int
  failedAt : Option Int
deriving DecidableEq, Repr

/-- Rewrite the record stored at key `k` of an association list, as a
Firebase `update` at that key does. -/
def updateAt {α : Type} (l : List (String × α)) (k : String) (f : α → α) :
    List (String × α) :=
  l.map (fun p => bif p.1 == k then (p.1, f p.2) else p)

/-- Remove the record stored at key `k`, as a Firebase `remove` does. -/
def removeAt {α : Type} (l : List (String × α)) (k : String) :
    List (String × α) :=
  l.filter (fun p => p.1 != k)

/-! ## POST /api/letters/:userId/:letterId/validate-security
(`src/api/letters.js` lines 312-444) -/

/-- Result of the validate-security route: the HTTP status, the `isCorrect`
field of the JSON body (absent on error responses), and the letter and the
owner's notification list after the handler ran. -/
structure ValidateSecurityResult where
  httpStatus : Nat
  isCorrect : Option Bool
  letter : Option Letter
  notifications : List Notification
deriving DecidableEq, Repr

/-- The notification appended when a letter is read. -/
def readNotification (now : Int) (letterId : String) (letter : Letter) :
    Notification where
  ntype := "letter_read"
  letterId := some letterId
  letterTitle := some (jsOrD letter.introductory "Your Letter")
  message := "Your letter \"" ++ jsOrD letter.introductory "Untitled Letter"
    ++ "\" has been read! 💌"
  read := JsVal.bool false
  readAt := none
  createdAt := now

/-- The validate-security handler.  `letter?` is the record at
`users/{userId}/letters/{letterId}`, `notifications` the owner's notification
list, `answer` the submitted answer (the empty string models a falsy
`req.body.answer`). -/
def validateSecurity (now : Int) (letter? : Option Letter)
    (notifications : List Notification) (letterId : String) (answer : String) :
    ValidateSecurityResult :=
  if answer = "" then
    { httpStatus := 400, isCorrect := none, letter := letter?, notifications }
  else
    match letter? with
    | none =>
      { httpStatus := 404, isCorrect := none, letter := none, notifications }
    | some letter =>
      match letter.securityType, letter.securityConfig with
      | some sType, some config =>
        if sType = "" then
          { httpStatus := 400, isCorrect := none, letter := some letter,
            notifications }
        else
          let finish (isCorrect : Bool) : ValidateSecurityResult :=
            if isCorrect then
              { httpStatus := 200, isCorrect := some true,
                letter := some { letter with
                  status := "read", readAt := some now },
                notifications :=
                  notifications ++ [readNotification now letterId letter] }
            else
              { httpStatus := 200, isCorrect := some false,
                letter := some letter, notifications }
          if sType = "quiz" then
            match config.correctAnswerHash with
            | some stored =>
              if stored = "" then
                { httpStatus := 500, isCorrect := none, letter := some letter,
                  notifications }
              else finish (hashAnswer answer == some stored)
            | none =>
              { httpStatus := 500, isCorrect := none, letter := some letter,
                notifications }
          else if sType = "date" then
            match config.correctDateHash with
            | some stored =>
              if stored = "" then
                { httpStatus := 500, isCorrect := none, letter := some letter,
                  notifications }
              else finish (hashAnswer (jsTrim answer) == some stored)
            | none =>
              { httpStatus := 500, isCorrect := none, letter := some letter,
                notifications }
          else
            { httpStatus := 400, isCorrect := none, letter := some letter,
              notifications }
      | _, _ =>
        { httpStatus := 400, isCorrect := none, letter := some letter,
          notifications }

/-! ## Token generation (`generateToken` in `src/api/letters.js`) -/

/-- `crypto.randomBytes(32).toString('hex')`, as a function of the 32 random
bytes. -/
def generateToken (bytes : List Nat) : String :=
  ⟨(bytes.map (fun b => [hexDigit (b / 16), hexDigit (b % 16)])).flatten⟩

/-- Lowercase hexadecimal alphabet. -/
def isLowerHexChar (c : Char) : Bool :=
  ('0' ≤ c && c ≤ '9') || ('a' ≤ c && c ≤ 'f')

/-! ## GET /api/letters/token/:token (`src/api/letters.js` lines 195-287) -/

def msPerDay : Int := 86400000

def msPerYear : Int := 365 * 86400000

/-- The response of the token route before serialisation: `userId` is the
field written after spreading the letter, so it holds the token record's
`userId` whatever `userId` field the letter itself carries. -/
structure TokenLetterResponse where
  id : String
  letter : Letter
  userId : String
  token : String
deriving DecidableEq, Repr

inductive TokenAccessResult where
  /-- 404 "Invalid or expired link". -/
  | notFound
  /-- 410 "Link has been revoked". -/
  | revoked
  /-- 410 "Link has expired". -/
  | expired
  /-- 404 "Letter not found". -/
  | letterNotFound
  /-- 200 with the merged letter body. -/
  | ok (resp : TokenLetterResponse)
deriving DecidableEq, Repr

def TokenAccessResult.httpStatus : TokenAccessResult → Nat
  | .notFound => 404
  | .revoked => 410
  | .expired => 410
  | .letterNotFound => 404
  | .ok _ => 200

/-- The letter body of a 200 response, when there is one. -/
def TokenAccessResult.response? : TokenAccessResult → Option TokenLetterResponse
  | .ok resp => some resp
  | _ => none

structure TokenAccessOutcome where
  result : TokenAccessResult
  letterTokens : List (String × TokenRecord)
deriving DecidableEq, Repr

/-- The GET /token/:token handler: token lookup, revocation and expiry
checks, the auto-renewal window, the letter fetch, access logging, and the
response merge.  `letters` is keyed by `(userId, letterId)`. -/
def getLetterByToken (letterTokens : List (String × TokenRecord))
    (letters : List ((String × String) × Letter)) (token : String)
    (now : Int) : TokenAccessOutcome :=
  match letterTokens.lookup token with
  | none => ⟨.notFound, letterTokens⟩
  | some tokenData =>
    if tokenData.isActive == some false then ⟨.revoked, letterTokens⟩
    else if (match tokenData.expiresAt with
             | some e => decide (e < now)
             | none => false) then ⟨.expired, letterTokens⟩
    else
      let renewalCount := tokenData.renewalCount.getD 0
      let tokens1 :=
        match tokenData.expiresAt with
        | some e =>
          if e - now ≤ 30 * msPerDay ∧ 0 < e - now ∧ renewalCount < 10 then
            updateAt letterTokens token (fun td =>
              { td with
                expiresAt := some (now + msPerYear),
                renewalCount := some (renewalCount + 1),
                lastRenewedAt := some now })
          else letterTokens
        | none => letterTokens
      match letters.lookup (tokenData.userId, tokenData.letterId) with
      | none => ⟨.letterNotFound, tokens1⟩
      | some letter =>
        let tokens2 := updateAt tokens1 token (fun td =>
          { td with accessLog := td.accessLog ++ [now] })
        ⟨.ok { id := tokenData.letterId, letter := letter,
               userId := tokenData.userId, token := token }, tokens2⟩

/-! ## POST /api/letters/:userId (`src/api/letters.js` lines 857-1163)

Letter creation.  Only the request fields that feed the stored record and
the token are modelled; a request that carries none of the music, style or
security-configuration fields exercises exactly this path. -/

structure CreateLetterBody where
  content : Option String
  receiverEmail : Option String
  receiverName : Option String
  introductory : Option String
  mainBody : Option String
  closing : Option String
deriving DecidableEq, Repr

/-- `finalContent` as computed by the handler: the three-part combination
when any part is truthy, the raw `content` field otherwise. -/
def finalContentOf (body : CreateLetterBody) : Option String :=
  if jsTruthyStr body.introductory || jsTruthyStr body.mainBody ||
      jsTruthyStr body.closing then
    let parts :=
      (match body.introductory with
       | some s => if s ≠ "" ∧ jsTrim s ≠ "" then [jsTrim s] else []
       | none => []) ++
      (match body.mainBody with
       | some s => if s ≠ "" ∧ jsTrim s ≠ "" then [jsTrim s] else []
       | none => []) ++
      (match body.closing with
       | some s => if s ≠ "" ∧ jsTrim s ≠ "" then [jsTrim s] else []
       | none => [])
    some (String.intercalate "\n\n" parts)
  else body.content

structure CreateLetterOutcome where
  httpStatus : Nat
  letterId : Option String
  token : Option String
  letters : List ((String × String) × Letter)
  letterTokens : List (String × TokenRecord)
deriving DecidableEq, Repr

/-- The letter-creation handler.  `letterId` is the fresh push key and
`tokenBytes` the 32 random bytes behind `generateToken`. -/
def createLetter (userId letterId : String) (tokenBytes : List Nat)
    (now : Int) (letters : List ((String × String) × Letter))
    (letterTokens : List (String × TokenRecord)) (body : CreateLetterBody) :
    CreateLetterOutcome :=
  match finalContentOf body with
  | none =>
    { httpStatus := 400, letterId := none, token := none, letters,
      letterTokens }
  | some finalContent =>
    if jsTrim finalContent = "" then
      { httpStatus := 400, letterId := none, token := none, letters,
        letterTokens }
    else
      let newLetter : Letter :=
        { content := jsTrim finalContent,
          receiverEmail := jsOrD body.receiverEmail "",
          receiverName := jsOrD body.receiverName "",
          status := "unread", readAt := none,
          createdAt := now, updatedAt := now,
          introductory := body.introductory.map jsTrim,
          mainBody := body.mainBody.map jsTrim,
          closing := body.closing.map jsTrim,
          securityType := none, securityConfig := none,
          accessToken := none, shareableLink := none,
          reaction := none, reactionSubmittedAt := none,
          emailSent := none, emailSentTo := none, emailSentAt := none,
          emailScheduled := none, scheduledDateTime := none, userId := none }
      let token := generateToken tokenBytes
      let tokenRecord : TokenRecord :=
        { userId := userId, letterId := letterId, createdAt := now,
          expiresAt := some (now + msPerYear), renewalCount := none,
          isActive := some true, lastRenewedAt := none, accessLog := [] }
      let letters1 := ((userId, letterId), newLetter) :: letters
      let letters2 := letters1.map (fun p =>
        bif p.1 == (userId, letterId) then
          (p.1, { p.2 with accessToken := some token })
        else p)
      { httpStatus := 201, letterId := some letterId, token := some token,
        letters := letters2,
        letterTokens := (token, tokenRecord) :: letterTokens }

/-! ## PUT /api/letters/:userId/:letterId (`src/api/letters.js` lines
1166-1343)

Letter update.  The request body is modelled with the fields the verified
claims exercise (the music fields are orthogonal merges of further keys and
are not carried). -/

structure UpdateLetterBody where
  content : Option String
  introductory : Option String
  mainBody : Option String
  closing : Option String
  shareableLink : Option String
  reaction : Option String
  emailSent : Option Bool
  emailSentTo : Option String
  emailScheduled : Option Bool
  scheduledDateTime : Option JsDate
deriving DecidableEq, Repr

/-- `if (x && x.trim()) parts.push(x.trim())` for one part. -/
def truthyTrimPart (o : Option String) : List String :=
  match o with
  | some s => if s ≠ "" ∧ jsTrim s ≠ "" then [jsTrim s] else []
  | none => []

/-- Step of the `updates` merge: `shareableLink`. -/
def updShareableLink (body : UpdateLetterBody) (l : Letter) : Letter :=
  match body.shareableLink with
  | some s => { l with shareableLink := some (jsTrim s) }
  | none => l

/-- Step of the `updates` merge: `emailSent` / `emailSentTo` /
`emailSentAt`. -/
def updEmailSent (now : Int) (body : UpdateLetterBody) (l : Letter) :
    Letter :=
  match body.emailSent with
  | some b =>
    let l1 := { l with emailSent := some b }
    if b ∧ jsTruthyStr body.emailSentTo then
      { l1 with
        emailSentTo := some (jsToLower (jsTrim (body.emailSentTo.getD ""))),
        emailSentAt := some now }
    else l1
  | none => l

/-- Step of the `updates` merge: `emailScheduled`. -/
def updEmailScheduled (body : UpdateLetterBody) (l : Letter) : Letter :=
  match body.emailScheduled with
  | some b => { l with emailScheduled := some b }
  | none => l

/-- Step of the `updates` merge: `scheduledDateTime` (only reached when the
value passed validation). -/
def updSchedDate (body : UpdateLetterBody) (l : Letter) : Letter :=
  match body.scheduledDateTime with
  | some d => { l with scheduledDateTime := some d }
  | none => l

/-- Step of the `updates` merge: the write-once reaction.  The truthiness
test reads the stored letter, as `if (!letter.reaction)` does. -/
def updReaction (now : Int) (letter : Letter) (body : UpdateLetterBody)
    (l : Letter) : Letter :=
  match body.reaction with
  | some r =>
    if jsTruthyStr letter.reaction then l
    else { l with reaction := some r, reactionSubmittedAt := some now }
  | none => l

/-- Step of the `updates` merge: the three-part or flat content fields,
falling back to the stored letter's parts. -/
def updContent (body : UpdateLetterBody) (letter : Letter) (l : Letter) :
    Letter :=
  if body.introductory.isSome || body.mainBody.isSome ||
      body.closing.isSome then
    let parts :=
      truthyTrimPart (body.introductory.or letter.introductory) ++
      truthyTrimPart (body.mainBody.or letter.mainBody) ++
      truthyTrimPart (body.closing.or letter.closing)
    let l1 := { l with content := String.intercalate "\n\n" parts }
    let l2 :=
      match body.introductory with
      | some s => { l1 with introductory := some (jsTrim s) }
      | none => l1
    let l3 :=
      match body.mainBody with
      | some s => { l2 with mainBody := some (jsTrim s) }
      | none => l2
    match body.closing with
    | some s => { l3 with closing := some (jsTrim s) }
    | none => l3
  else
    match body.content with
    | some c => { l with content := jsTrim c }
    | none => l

/-- The merge of the `updates` object into the stored letter, for a request
that passed the scheduled-date validation. -/
def applyLetterUpdates (now : Int) (letter : Letter)
    (body : UpdateLetterBody) : Letter :=
  updContent body letter
    (updReaction now letter body
      (updSchedDate body
        (updEmailScheduled body
          (updEmailSent now body
            (updShareableLink body { letter with updatedAt := now })))))

structure UpdateLetterOutcome where
  httpStatus : Nat
  letter : Option Letter
  scheduledEmails : List (String × ScheduledEmail)
deriving DecidableEq, Repr

/-- The scheduled-emails side update performed when a valid future
`scheduledDateTime` is saved: the first pending entry matching the letter's
`emailSentTo` and `shareableLink` gets the new time. -/
def retimeMatchingScheduledEmail (now t : Int) (letter : Letter)
    (body : UpdateLetterBody)
    (scheduledEmails : List (String × ScheduledEmail)) :
    List (String × ScheduledEmail) :=
  match letter.emailSentTo, letter.shareableLink with
  | some sentTo, some link =>
    if sentTo ≠ "" ∧ link ≠ "" ∧ body.emailScheduled ≠ some false then
      match scheduledEmails.find? (fun p =>
          p.2.recipientEmail == sentTo && p.2.shareableLink == link &&
          p.2.status == "pending") with
      | some hit =>
        updateAt scheduledEmails hit.1 (fun e =>
          { e with scheduledDateTime := some t, updatedAt := some now })
      | none => scheduledEmails
    else scheduledEmails
  | _, _ => scheduledEmails

/-- The PUT /:userId/:letterId handler.  `letter?` is the stored record; the
whole update is written in one `letterRef.update(updates)` at the end, so a
validation failure leaves both the letter and `scheduledEmails` untouched. -/
def updateLetter (now : Int) (letter? : Option Letter)
    (scheduledEmails : List (String × ScheduledEmail))
    (body : UpdateLetterBody) : UpdateLetterOutcome :=
  match letter? with
  | none => ⟨404, none, scheduledEmails⟩
  | some letter =>
    match body.scheduledDateTime with
    | some d =>
      match d.parsed with
      | none => ⟨400, some letter, scheduledEmails⟩
      | some t =>
        if t ≤ now then ⟨400, some letter, scheduledEmails⟩
        else
          ⟨200, some (applyLetterUpdates now letter body),
           retimeMatchingScheduledEmail now t letter body scheduledEmails⟩
    | none => ⟨200, some (applyLetterUpdates now letter body), scheduledEmails⟩

/-! ## POST /api/letter-email/send (`src/api/letter-email.js` lines 9-209) -/

structure LetterEmailBody where
  recipientEmail : Option String
  recipientName : Option String
  senderName : Option String
  shareableLink : Option String
  letterTitle : Option String
  scheduledDateTime : Option JsDate
deriving DecidableEq, Repr

/-- The `mailOptions` value, abstracted to the data interpolated into the
HTML template. -/
def mailOptionsFor (recipientEmail receiverName sender link : String) :
    String :=
  String.intercalate "|" ["Dearly", sender, recipientEmail, receiverName,
    link]

structure LetterEmailOutcome where
  httpStatus : Nat
  scheduledEmails : List (String × ScheduledEmail)
  /-- Recipients of emails handed to the transporter during the request. -/
  sentNow : List String
deriving DecidableEq, Repr

/-- The POST /send handler.  `freshId` is the generated
`scheduled_<timestamp>_<random>` key. -/
def letterEmailSend (now : Int) (freshId : String)
    (scheduledEmails : List (String × ScheduledEmail))
    (body : LetterEmailBody) : LetterEmailOutcome :=
  if ¬(jsTruthyStr body.recipientEmail ∧ jsTruthyStr body.shareableLink) then
    ⟨400, scheduledEmails, []⟩
  else
    let recipientEmail := body.recipientEmail.getD ""
    let receiverName := jsOrD body.recipientName "there"
    let sender := jsOrD body.senderName "Someone special"
    let title := jsOrD body.letterTitle "A special letter for you"
    let link := body.shareableLink.getD ""
    let immediate : LetterEmailOutcome :=
      ⟨200, scheduledEmails, [recipientEmail]⟩
    match body.scheduledDateTime with
    | some d =>
      if d.truthy then
        match d.parsed with
        | none => ⟨400, scheduledEmails, []⟩
        | some t =>
          if t ≤ now then ⟨400, scheduledEmails, []⟩
          else
            let record : ScheduledEmail :=
              { recipientEmail := recipientEmail,
                recipientName := receiverName, senderName := sender,
                letterTitle := title, shareableLink := link,
                mailOptions :=
                  mailOptionsFor recipientEmail receiverName sender link,
                scheduledDateTime := some t, status := "pending",
                createdAt := some now, updatedAt := none, error := none,
                sendingStartedAt := none, failedAt := none }
            ⟨200, (freshId, record) :: scheduledEmails, []⟩
      else immediate
    | none => immediate

/-! ## PUT /api/notifications/:userId/all/read (`src/api/notifications.js`
lines 66-208) -/

/-- The route's already-read test: `read === true || read === "true"`. -/
def isReadVal (v : JsVal) : Bool :=
  v == JsVal.bool true || v == JsVal.str "true"

/-- The mark-all-read handler over the user's notification list, under a
reliable datastore (every per-id `set` lands and verifies on the first
attempt, matching the handler's happy path).  Returns the final list and the
`updatedCount` of the JSON response. -/
def markAllRead (now : Int) (ns : List (String × Notification)) :
    List (String × Notification) × Nat :=
  ns.foldr
    (fun p acc =>
      if isReadVal p.2.read then (p :: acc.1, acc.2)
      else
        ((p.1, { p.2 with read := JsVal.bool true, readAt := some now })
            :: acc.1,
          acc.2 + 1))
    ([], 0)

/-! ## Scheduled-email delivery (`src/jobs/emailScheduler.js`) -/

/-- What the send loop did, in order: transporter calls and the fixed
inter-send pauses. -/
inductive SendEvent where
  | send (id : String)
  | delay (ms : Nat)
deriving DecidableEq, Repr

/-- `sendScheduledEmail(emailData, emailId)`.  `sendResult id` is the
outcome of `transporter.sendMail` for that record: `none` on success,
`some msg` when it throws with message `msg`. -/
def sendScheduledEmail (sendResult : String → Option String) (now : Int)
    (id : String) (em : ScheduledEmail)
    (st : List (String × ScheduledEmail)) :
    List (String × ScheduledEmail) × List SendEvent :=
  if (match em.scheduledDateTime with
      | some t => decide (now < t)
      | none => false) then
    (st, [])
  else
    let st1 := updateAt st id (fun e =>
      { e with status := "sending", sendingStartedAt := some now })
    match sendResult id with
    | none => (removeAt st1 id, [SendEvent.send id])
    | some msg =>
      (updateAt st1 id (fun e =>
        { e with
          status := "failed", error := some msg, failedAt := some now }),
       [SendEvent.send id])

/-- The sequential send loop: each selected email is processed, then the
loop awaits the fixed 1000 ms pause. -/
def processScheduled (sendResult : String → Option String) (now : Int) :
    List (String × ScheduledEmail) → List (String × ScheduledEmail) →
    List (String × ScheduledEmail) × List SendEvent
  | [], st => (st, [])
  | (id, em) :: rest, st =>
    let r1 := sendScheduledEmail sendResult now id em st
    let r2 := processScheduled sendResult now rest r1.1
    (r2.1, r1.2 ++ SendEvent.delay 1000 :: r2.2)

/-- The selection buffer: 60 s on the startup check, 10 s on a regular
tick. -/
def minBufferFor (isStartupCheck : Bool) : Int :=
  if isStartupCheck then 60000 else 10000

/-- The readiness filter of `checkAndSendScheduledEmails`: pending status,
a valid scheduled date, and overdue by at least the buffer. -/
def dueFilter (now buffer : Int) (entry : String × ScheduledEmail) : Bool :=
  entry.2.status == "pending" &&
    (match entry.2.scheduledDateTime with
     | some t => decide (now - t ≥ buffer)
     | none => false)

/-- One tick of `checkAndSendScheduledEmails`. -/
def checkAndSendScheduledEmails (sendResult : String → Option String)
    (isStartupCheck : Bool) (now : Int)
    (st : List (String × ScheduledEmail)) :
    List (String × ScheduledEmail) × List SendEvent :=
  let emailsToSend := st.filter (dueFilter now (minBufferFor isStartupCheck))
  processScheduled sendResult now emailsToSend st

/-! ## Vercel cron handler (`src/unnamed/part_005`) -/

/-- The Vercel handler's own copy of `sendScheduledEmail`; its observable
behaviour on the database is the same as the scheduler's. -/
def vercelSendScheduledEmail (sendResult : String → Option String)
    (now : Int) (id : String) (em : ScheduledEmail)
    (st : List (String × ScheduledEmail)) :
    List (String × ScheduledEmail) × List SendEvent :=
  if (match em.scheduledDateTime with
      | some t => decide (now < t)
      | none => false) then
    (st, [])
  else
    let st1 := updateAt st id (fun e =>
      { e with status := "sending", sendingStartedAt := some now })
    match sendResult id with
    | none => (removeAt st1 id, [SendEvent.send id])
    | some msg =>
      (updateAt st1 id (fun e =>
        { e with
          status := "failed", error := some msg, failedAt := some now }),
       [SendEvent.send id])

/-- The Vercel handler's readiness filter: pending status, a truthy and
valid `scheduledDateTime`, and `-60000 <= scheduledDate - now <= 60000`. -/
def vercelDue (now : Int) (entry : String × ScheduledEmail) : Bool :=
  entry.2.status == "pending" &&
    (match entry.2.scheduledDateTime with
     | some t => decide (t - now ≤ 60000 ∧ -60000 ≤ t - now)
     | none => false)

/-- The emails the Vercel cron handler selects on one invocation. -/
def vercelEmailsToSend (now : Int) (st : List (String × ScheduledEmail)) :
    List (String × ScheduledEmail) :=
  st.filter (vercelDue now)

/-! ## Association-list lemmas -/

theorem lookup_updateAt_self {α : Type} (l : List (String × α)) (k : String)
    (f : α → α) : (updateAt l k f).lookup k = (l.lookup k).map f := by
  induction l with
  | nil => rfl
  | cons p t ih =>
    cases hb : (p.1 == k)
    · have hb' : (k == p.1) = false := by
        rw [beq_eq_false_iff_ne] at hb ⊢
        exact fun e => hb e.symm
      simpa [updateAt, List.lookup, hb, hb'] using ih
    · have hk : p.1 = k := by simpa [beq_iff_eq] using hb
      have hb' : (k == p.1) = true := by simp [beq_iff_eq, hk]
      simp [updateAt, List.lookup, hb, hb']

theorem lookup_updateAt_ne {α : Type} (l : List (String × α)) (k k' : String)
    (f : α → α) (h : k' ≠ k) :
    (updateAt l k f).lookup k' = l.lookup k' := by
  induction l with
  | nil => rfl
  | cons p t ih =>
    cases hb : (p.1 == k)
    · cases hk : (k' == p.1)
      · simpa [updateAt, List.lookup, hb, hk] using ih
      · simp [updateAt, List.lookup, hb, hk]
    · have hp : p.1 = k := by simpa [beq_iff_eq] using hb
      have h1 : (k' == p.1) = false := by
        rw [beq_eq_false_iff_ne]
        exact fun e => h (e.trans hp)
      have h2 : (k' == k) = false := by
        rw [beq_eq_false_iff_ne]
        exact h
      simpa [updateAt, List.lookup, hb, h1, h2] using ih

theorem lookup_removeAt_self {α : Type} (l : List (String × α)) (k : String) :
    (removeAt l k).lookup k = none := by
  induction l with
  | nil => rfl
  | cons p t ih =>
    cases hb : (p.1 == k)
    · have hb' : (k == p.1) = false := by
        rw [beq_eq_false_iff_ne] at hb ⊢
        exact fun e => hb e.symm
      simpa [removeAt, List.filter, List.lookup, bne, hb, hb'] using ih
    · simpa [removeAt, List.filter, bne, hb] using ih

theorem lookup_removeAt_ne {α : Type} (l : List (String × α)) (k k' : String)
    (h : k' ≠ k) : (removeAt l k).lookup k' = l.lookup k' := by
  induction l with
  | nil => rfl
  | cons p t ih =>
    cases hb : (p.1 == k)
    · cases hk : (k' == p.1)
      · simpa [removeAt, List.filter, List.lookup, bne, hb, hk] using ih
      · simp [removeAt, List.filter, List.lookup, bne, hb, hk]
    · have hp : p.1 = k := by simpa [beq_iff_eq] using hb
      have h1 : (k' == p.1) = false := by
        rw [beq_eq_false_iff_ne]
        exact fun e => h (e.trans hp)
      simpa [removeAt, List.filter, List.lookup, bne, hb, h1] using ih

theorem lookup_eq_of_mem {α : Type} (l : List (String × α)) (k : String)
    (v : α) (hnd : (l.map Prod.fst).Nodup) (hm : (k, v) ∈ l) :
    l.lookup k = some v := by
  induction l with
  | nil => cases hm
  | cons p t ih =>
    simp only [List.map_cons, List.nodup_cons] at hnd
    rcases List.mem_cons.mp hm with h | h
    · subst h
      simp [List.lookup]
    · have hne : k ≠ p.1 := by
        intro hk
        exact hnd.1 (hk ▸ (List.mem_map.mpr ⟨(k, v), h, rfl⟩))
      simp only [List.lookup]
      rw [show (k == p.1) = false by rw [beq_eq_false_iff_ne]; exact hne]
      exact ih hnd.2 h

/-! ## Claim theorems -/

/-- C3: GET /token/:token answers 404 when the token is absent from
`letterTokens`; a stored record whose `expiresAt` is in the past answers 410
without returning the letter and without renewing or otherwise touching the
token table; a record with `isActive === false` answers 410. -/
theorem c3_expired_revoked_absent
    (letterTokens : List (String × TokenRecord))
    (letters : List ((String × String) × Letter)) (token : String) (now : Int)
    (td : TokenRecord) (e : Int) :
    (letterTokens.lookup token = none →
      getLetterByToken letterTokens letters token now =
        ⟨.notFound, letterTokens⟩) ∧
    (letterTokens.lookup token = some td → td.expiresAt = some e → e < now →
      (getLetterByToken letterTokens letters token now).result.httpStatus
          = 410 ∧
      (getLetterByToken letterTokens letters token now).result.response?
          = none ∧
      (getLetterByToken letterTokens letters token now).letterTokens
          = letterTokens) ∧
    (letterTokens.lookup token = some td → td.isActive = some false →
      getLetterByToken letterTokens letters token now =
        ⟨.revoked, letterTokens⟩) := by
  refine ⟨?_, ?_, ?_⟩
  · intro h
    simp [getLetterByToken, h]
  · intro h he hlt
    cases ha : (td.isActive == some false)
    · simp [getLetterByToken, h, ha, he, hlt, TokenAccessResult.httpStatus,
        TokenAccessResult.response?]
    · simp [getLetterByToken, h, ha, TokenAccessResult.httpStatus,
        TokenAccessResult.response?]
  · intro h ha
    simp [getLetterByToken, h, ha]

def c3Token : TokenRecord where
  userId := "owner"
  letterId := "L1"
  createdAt := 0
  expiresAt := some 100
  renewalCount := none
  isActive := some true
  lastRenewedAt := none
  accessLog := []

theorem c3_expired_revoked_absent_witness :
    (getLetterByToken [] [] "t0" 500 = ⟨.notFound, []⟩) ∧
    ((getLetterByToken [("t0", c3Token)] [] "t0" 500).result.httpStatus
        = 410) ∧
    (getLetterByToken [("t0", { c3Token with isActive := some false })] []
        "t0" 0 =
      ⟨.revoked, [("t0", { c3Token with isActive := some false })]⟩) :=
  ⟨(c3_expired_revoked_absent [] [] "t0" 500 c3Token 100).1 rfl,
   (((c3_expired_revoked_absent [("t0", c3Token)] [] "t0" 500 c3Token
      100).2.1 (by decide) rfl (by decide)).1),
   ((c3_expired_revoked_absent
      [("t0", { c3Token with isActive := some false })] [] "t0" 0
      { c3Token with isActive := some false } 100).2.2 (by decide) rfl)⟩

/-- C2: on GET /token/:token, an active token whose stored `expiresAt` lies
within the next 30 days and whose renewal count is below 10 gets its
`expiresAt` moved to one year from now and its `renewalCount` incremented by
one; a record whose renewal count has reached 10 keeps both fields
unchanged, as does a record expiring more than 30 days out. -/
theorem c2_auto_renewal
    (letterTokens : List (String × TokenRecord))
    (letters : List ((String × String) × Letter)) (token : String) (now : Int)
    (td : TokenRecord) (e : Int)
    (h : letterTokens.lookup token = some td)
    (ha : td.isActive ≠ some false)
    (he : td.expiresAt = some e) :
    (0 < e - now → e - now ≤ 30 * msPerDay → td.renewalCount.getD 0 < 10 →
      ((getLetterByToken letterTokens letters token
            now).letterTokens.lookup token).map
          (fun td' => (td'.expiresAt, td'.renewalCount)) =
        some (some (now + msPerYear), some (td.renewalCount.getD 0 + 1))) ∧
    (10 ≤ td.renewalCount.getD 0 →
      ((getLetterByToken letterTokens letters token
            now).letterTokens.lookup token).map
          (fun td' => (td'.expiresAt, td'.renewalCount)) =
        some (td.expiresAt, td.renewalCount)) ∧
    (30 * msPerDay < e - now →
      ((getLetterByToken letterTokens letters token
            now).letterTokens.lookup token).map
          (fun td' => (td'.expiresAt, td'.renewalCount)) =
        some (td.expiresAt, td.renewalCount)) := by
  have ha' : (td.isActive == some false) = false := by
    rw [beq_eq_false_iff_ne]
    exact ha
  refine ⟨?_, ?_, ?_⟩
  · intro h1 h2 h3
    have hlt : ¬ e < now := by omega
    simp only [getLetterByToken, h, ha', Bool.false_eq_true, if_false, he,
      decide_eq_true_eq, if_neg hlt]
    rw [if_pos ⟨h2, h1, h3⟩]
    cases hlook : letters.lookup (td.userId, td.letterId) with
    | none =>
      simp only [hlook]
      rw [lookup_updateAt_self, h]
      rfl
    | some letter =>
      simp only [hlook]
      rw [lookup_updateAt_self, lookup_updateAt_self, h]
      rfl
  · intro h10
    by_cases hlt : e < now
    · simp only [getLetterByToken, h, ha', Bool.false_eq_true, if_false, he,
        decide_eq_true_eq, if_pos hlt]
      simp [he]
    · simp only [getLetterByToken, h, ha', Bool.false_eq_true, if_false, he,
        decide_eq_true_eq, if_neg hlt]
      rw [if_neg (fun hcond => absurd hcond.2.2 (by omega))]
      cases hlook : letters.lookup (td.userId, td.letterId) with
      | none =>
        simp only [hlook]
        rw [h]
        simp [he]
      | some letter =>
        simp only [hlook]
        rw [lookup_updateAt_self, h]
        simp [he]
  · intro h30
    have h30' : (2592000000 : Int) < e - now := by
      simpa [msPerDay] using h30
    have hlt : ¬ e < now := by omega
    simp only [getLetterByToken, h, ha', Bool.false_eq_true, if_false, he,
      decide_eq_true_eq, if_neg hlt]
    rw [if_neg (fun hcond => absurd hcond.1 (by omega))]
    cases hlook : letters.lookup (td.userId, td.letterId) with
    | none =>
      simp only [hlook]
      rw [h]
      simp [he]
    | some letter =>
      simp only [hlook]
      rw [lookup_updateAt_self, h]
      simp [he]

def c2Tok : TokenRecord where
  userId := "owner"
  letterId := "L1"
  createdAt := 0
  expiresAt := some (29 * msPerDay)
  renewalCount := none
  isActive := some true
  lastRenewedAt := none
  accessLog := []

def c2TokMax : TokenRecord :=
  { c2Tok with renewalCount := some 10 }

def c2TokFar : TokenRecord :=
  { c2Tok with expiresAt := some (40 * msPerDay) }

theorem c2_auto_renewal_witness :
    (((getLetterByToken [("t0", c2Tok)] [] "t0" 0).letterTokens.lookup
        "t0").map (fun td' => (td'.expiresAt, td'.renewalCount)) =
      some (some (0 + msPerYear), some (c2Tok.renewalCount.getD 0 + 1))) ∧
    (((getLetterByToken [("t1", c2TokMax)] [] "t1" 0).letterTokens.lookup
        "t1").map (fun td' => (td'.expiresAt, td'.renewalCount)) =
      some (c2TokMax.expiresAt, c2TokMax.renewalCount)) ∧
    (((getLetterByToken [("t2", c2TokFar)] [] "t2" 0).letterTokens.lookup
        "t2").map (fun td' => (td'.expiresAt, td'.renewalCount)) =
      some (c2TokFar.expiresAt, c2TokFar.renewalCount)) :=
  ⟨(c2_auto_renewal [("t0", c2Tok)] [] "t0" 0 c2Tok (29 * msPerDay)
      (by decide) (by decide) (by decide)).1 (by decide) (by decide)
      (by decide),
   (c2_auto_renewal [("t1", c2TokMax)] [] "t1" 0 c2TokMax (29 * msPerDay)
      (by decide) (by decide) (by decide)).2.1 (by decide),
   (c2_auto_renewal [("t2", c2TokFar)] [] "t2" 0 c2TokFar (40 * msPerDay)
      (by decide) (by decide) (by decide)).2.2 (by decide)⟩

/-- C8 (amended): for a valid token, the 200 response of GET /token/:token
is the stored letter merged with the `userId` of the token record — written
after the spread, so it overrides any `userId` field the letter itself
carries — together with the letter id and the token.  The caller supplies
only the token. -/
theorem c8_merge_uses_token_userid
    (letterTokens : List (String × TokenRecord))
    (letters : List ((String × String) × Letter)) (token : String) (now : Int)
    (td : TokenRecord) (e : Int) (letter : Letter)
    (h : letterTokens.lookup token = some td)
    (ha : td.isActive ≠ some false)
    (he : td.expiresAt = some e)
    (hexp : ¬ e < now)
    (hl : letters.lookup (td.userId, td.letterId) = some letter) :
    (getLetterByToken letterTokens letters token now).result =
      .ok { id := td.letterId, letter := letter, userId := td.userId,
            token := token } := by
  have ha' : (td.isActive == some false) = false := by
    rw [beq_eq_false_iff_ne]
    exact ha
  simp only [getLetterByToken, h, ha', Bool.false_eq_true, if_false, he,
    decide_eq_true_eq, if_neg hexp]
  by_cases hren :
      (e - now ≤ 30 * msPerDay ∧ 0 < e - now ∧ td.renewalCount.getD 0 < 10)
  · rw [if_pos hren]
    simp [hl]
  · rw [if_neg hren]
    simp [hl]

def c8Letter : Letter where
  content := "hello"
  receiverEmail := ""
  receiverName := ""
  status := "unread"
  readAt := none
  createdAt := 0
  updatedAt := 0
  introductory := none
  mainBody := none
  closing := none
  securityType := none
  securityConfig := none
  accessToken := some "t0"
  shareableLink := none
  reaction := none
  reactionSubmittedAt := none
  emailSent := none
  emailSentTo := none
  emailSentAt := none
  emailScheduled := none
  scheduledDateTime := none
  userId := some "stray"

def c8Tok : TokenRecord where
  userId := "owner"
  letterId := "L1"
  createdAt := 0
  expiresAt := some (40 * msPerDay)
  renewalCount := none
  isActive := some true
  lastRenewedAt := none
  accessLog := []

/-- C8, as stated, is false: the claim has the response merge in a
caller-supplied `userId`, but the request carries only the token and the
handler merges in the token record's `userId` ("owner" here) no matter what
userId the caller supplies. -/
theorem c8_counterexample :
    ¬ (∀ callerUserId : String,
        ((getLetterByToken [("t0", c8Tok)] [(("owner", "L1"), c8Letter)]
              "t0" 0).result.response?).map TokenLetterResponse.userId =
          some callerUserId) := by
  intro hclaim
  exact absurd ((hclaim "caller").symm.trans (hclaim "owner")) (by decide)

theorem c8_merge_uses_token_userid_witness :
    (getLetterByToken [("t0", c8Tok)] [(("owner", "L1"), c8Letter)]
        "t0" 0).result =
      .ok { id := "L1", letter := c8Letter, userId := "owner",
            token := "t0" } :=
  c8_merge_uses_token_userid [("t0", c8Tok)]
    [(("owner", "L1"), c8Letter)] "t0" 0 c8Tok (40 * msPerDay) c8Letter
    (by decide) (by decide) (by decide) (by decide) (by decide)

theorem hexDigit_lowerHex : ∀ n, n < 16 → isLowerHexChar (hexDigit n) = true := by
  decide

theorem generateToken_length (bytes : List Nat) :
    (generateToken bytes).length = 2 * bytes.length := by
  show ((bytes.map fun b => [hexDigit (b / 16), hexDigit (b % 16)]).flatten).length
      = 2 * bytes.length
  induction bytes with
  | nil => rfl
  | cons b t ih =>
    simp only [List.map_cons, List.flatten_cons, List.length_append,
      List.length_cons, ih]
    simp
    omega

theorem generateToken_hex (bytes : List Nat) (hb : ∀ b ∈ bytes, b < 256) :
    ∀ c ∈ (generateToken bytes).data, isLowerHexChar c = true := by
  intro c hc
  have hc' : c ∈ (bytes.map fun b =>
      [hexDigit (b / 16), hexDigit (b % 16)]).flatten := hc
  rcases List.mem_flatten.mp hc' with ⟨s, hs, hcs⟩
  rcases List.mem_map.mp hs with ⟨b, hbmem, rfl⟩
  have hblt := hb b hbmem
  rcases List.mem_cons.mp hcs with h | h
  · subst h
    exact hexDigit_lowerHex _ (by omega)
  · rcases List.mem_cons.mp h with h' | h'
    · subst h'
      exact hexDigit_lowerHex _ (Nat.mod_lt _ (by decide))
    · cases h'

/-- C6: a letter created by POST /:userId is retrievable through the token
returned with the 201 response: the token is a 64-character lowercase-hex
string, `letterTokens` maps it to exactly the created `(userId, letterId)`
pair, and an immediately following GET /token/:token answers 200 with that
letter id and the created content. -/
theorem c6_create_then_fetch
    (userId letterId : String) (tokenBytes : List Nat) (now : Int)
    (letters : List ((String × String) × Letter))
    (letterTokens : List (String × TokenRecord)) (body : CreateLetterBody)
    (finalContent : String)
    (hfc : finalContentOf body = some finalContent)
    (hne : ¬ jsTrim finalContent = "")
    (hlen : tokenBytes.length = 32)
    (hbytes : ∀ b ∈ tokenBytes, b < 256) :
    (createLetter userId letterId tokenBytes now letters letterTokens
        body).httpStatus = 201 ∧
    (createLetter userId letterId tokenBytes now letters letterTokens
        body).token = some (generateToken tokenBytes) ∧
    (generateToken tokenBytes).length = 64 ∧
    (∀ c ∈ (generateToken tokenBytes).data, isLowerHexChar c = true) ∧
    ((createLetter userId letterId tokenBytes now letters letterTokens
          body).letterTokens.lookup (generateToken tokenBytes) =
      some { userId := userId, letterId := letterId, createdAt := now,
             expiresAt := some (now + msPerYear), renewalCount := none,
             isActive := some true, lastRenewedAt := none,
             accessLog := [] }) ∧
    (∃ resp,
      (getLetterByToken
          (createLetter userId letterId tokenBytes now letters letterTokens
            body).letterTokens
          (createLetter userId letterId tokenBytes now letters letterTokens
            body).letters
          (generateToken tokenBytes) now).result = .ok resp ∧
      resp.id = letterId ∧ resp.letter.content = jsTrim finalContent ∧
      resp.userId = userId) := by
  refine ⟨?_, ?_, ?_, ?_, ?_, ?_⟩
  · simp [createLetter, hfc, if_neg hne]
  · simp [createLetter, hfc, if_neg hne]
  · rw [generateToken_length, hlen]
  · exact generateToken_hex tokenBytes hbytes
  · simp [createLetter, hfc, if_neg hne, List.lookup]
  · have harith : ¬ (now + msPerYear - now ≤ 30 * msPerDay) := by
      simp only [msPerYear, msPerDay]
      omega
    have hexp : (decide (now + msPerYear < now)) = false := by
      simp only [msPerYear, decide_eq_false_iff_not]
      omega
    simp only [createLetter, hfc, if_neg hne]
    simp only [getLetterByToken, List.lookup, beq_self_eq_true, cond_true,
      List.map_cons, Option.getD]
    simp [hexp, harith]
    exact ⟨_, rfl, rfl, rfl, rfl⟩

theorem c6_create_then_fetch_witness :
    ∃ resp,
      (getLetterByToken
          (createLetter "u1" "L1" (List.replicate 32 171) 1000 [] []
            { content := some " hi there ", receiverEmail := none,
              receiverName := none, introductory := none, mainBody := none,
              closing := none }).letterTokens
          (createLetter "u1" "L1" (List.replicate 32 171) 1000 [] []
            { content := some " hi there ", receiverEmail := none,
              receiverName := none, introductory := none, mainBody := none,
              closing := none }).letters
          (generateToken (List.replicate 32 171)) 1000).result = .ok resp ∧
      resp.id = "L1" ∧ resp.letter.content = jsTrim " hi there " ∧
      resp.userId = "u1" :=
  (c6_create_then_fetch "u1" "L1" (List.replicate 32 171) 1000 [] []
    { content := some " hi there ", receiverEmail := none,
      receiverName := none, introductory := none, mainBody := none,
      closing := none } " hi there " (by decide) (by decide) (by decide)
    (by decide)).2.2.2.2.2

/-! ## Trim idempotence -/

theorem dropWhile_eq_self_of_head (p : Char → Bool) (l : List Char)
    (h : ∀ a, l.head? = some a → p a = false) : l.dropWhile p = l := by
  cases l with
  | nil => rfl
  | cons a t =>
    rw [List.dropWhile_cons, if_neg]
    simp [h a rfl]

theorem head?_trimChars (l : List Char) :
    ∀ a, (trimChars l).head? = some a → jsIsSpace a = false := by
  intro a ha
  unfold trimChars at ha
  rw [List.head?_reverse] at ha
  obtain ⟨t, ht⟩ :=
    List.dropWhile_suffix (l := (l.dropWhile jsIsSpace).reverse) jsIsSpace
  have h2 : ((l.dropWhile jsIsSpace).reverse).getLast? = some a := by
    rw [← ht, List.getLast?_append, ha]
    rfl
  rw [List.getLast?_reverse] at h2
  have h3 := List.head?_dropWhile_not jsIsSpace l
  rw [h2] at h3
  exact h3

theorem getLast?_trimChars (l : List Char) :
    ∀ a, (trimChars l).getLast? = some a → jsIsSpace a = false := by
  intro a ha
  unfold trimChars at ha
  rw [List.getLast?_reverse] at ha
  have h3 :=
    List.head?_dropWhile_not jsIsSpace ((l.dropWhile jsIsSpace).reverse)
  rw [ha] at h3
  exact h3

theorem trimChars_eq_self (m : List Char)
    (h1 : ∀ a, m.head? = some a → jsIsSpace a = false)
    (h2 : ∀ a, m.getLast? = some a → jsIsSpace a = false) :
    trimChars m = m := by
  unfold trimChars
  rw [dropWhile_eq_self_of_head _ _ h1]
  rw [dropWhile_eq_self_of_head _ _ (by
    intro a ha
    rw [List.head?_reverse] at ha
    exact h2 a ha)]
  exact List.reverse_reverse m

theorem trimChars_idem (l : List Char) :
    trimChars (trimChars l) = trimChars l :=
  trimChars_eq_self _ (head?_trimChars l) (getLast?_trimChars l)

theorem jsTrim_idem (s : String) : jsTrim (jsTrim s) = jsTrim s :=
  congrArg String.mk (trimChars_idem s.data)

theorem normalizeAnswer_jsTrim (s : String) :
    normalizeAnswer (jsTrim s) = normalizeAnswer s := by
  unfold normalizeAnswer
  rw [jsTrim_idem]

/-- C1 (amended): for a letter with securityType 'quiz' or 'date' and a
stored non-empty answer hash, validate-security answers isCorrect = true
exactly when the SHA-256 digest of the normalised submitted answer equals
the stored hash — except that for 'date' a submitted answer that trims to
the empty string is always judged incorrect; a correct answer marks the
letter read and appends exactly one notification, of type 'letter_read',
for the owner, and an incorrect answer changes neither the letter nor the
notifications. -/
theorem c1_validate_security
    (now : Int) (letter : Letter) (notifs : List Notification)
    (letterId answer sty : String) (cfg : SecurityConfig) (h : String)
    (hty : letter.securityType = some sty)
    (hq : sty = "quiz" ∨ sty = "date")
    (hcfg : letter.securityConfig = some cfg)
    (hstored : (if sty = "quiz" then cfg.correctAnswerHash
                else cfg.correctDateHash) = some h)
    (hhne : h ≠ "") (hans : answer ≠ "") :
    ((validateSecurity now (some letter) notifs letterId answer).isCorrect
        = some true ↔
      (sha256hex (normalizeAnswer answer) = h ∧
        (sty = "date" → jsTrim answer ≠ ""))) ∧
    ((validateSecurity now (some letter) notifs letterId answer).isCorrect
        = some true →
      (validateSecurity now (some letter) notifs letterId answer).letter =
        some { letter with status := "read", readAt := some now } ∧
      (validateSecurity now (some letter) notifs letterId
          answer).notifications =
        notifs ++ [readNotification now letterId letter]) ∧
    ((validateSecurity now (some letter) notifs letterId answer).isCorrect
        = some false →
      (validateSecurity now (some letter) notifs letterId answer).letter =
        some letter ∧
      (validateSecurity now (some letter) notifs letterId
          answer).notifications = notifs) ∧
    (readNotification now letterId letter).ntype = "letter_read" := by
  rcases hq with rfl | rfl
  · rw [if_pos rfl] at hstored
    have hred : validateSecurity now (some letter) notifs letterId answer =
        if (hashAnswer answer == some h) = true then
          { httpStatus := 200, isCorrect := some true,
            letter := some { letter with
              status := "read", readAt := some now },
            notifications :=
              notifs ++ [readNotification now letterId letter] }
        else
          { httpStatus := 200, isCorrect := some false,
            letter := some letter, notifications := notifs } := by
      simp [validateSecurity, hans, hty, hcfg, hstored, hhne]
    by_cases hok : sha256hex (normalizeAnswer answer) = h
    · have hbeq : (hashAnswer answer == some h) = true := by
        simp [hashAnswer, hans, hok]
      rw [hred, if_pos hbeq]
      refine ⟨?_, fun _ => ⟨rfl, rfl⟩, fun hfalse => ?_, rfl⟩
      · simp [hok]
      · simp at hfalse
    · have hbeq : (hashAnswer answer == some h) = false := by
        simp [hashAnswer, hans, hok]
      rw [hred, if_neg (by simp [hbeq])]
      refine ⟨?_, fun htrue => ?_, fun _ => ⟨rfl, rfl⟩, rfl⟩
      · simp [hok]
      · simp at htrue
  · rw [if_neg (by decide)] at hstored
    have hred : validateSecurity now (some letter) notifs letterId answer =
        if (hashAnswer (jsTrim answer) == some h) = true then
          { httpStatus := 200, isCorrect := some true,
            letter := some { letter with
              status := "read", readAt := some now },
            notifications :=
              notifs ++ [readNotification now letterId letter] }
        else
          { httpStatus := 200, isCorrect := some false,
            letter := some letter, notifications := notifs } := by
      simp [validateSecurity, hans, hty, hcfg, hstored, hhne]
    by_cases htrim : jsTrim answer = ""
    · have hbeq : (hashAnswer (jsTrim answer) == some h) = false := by
        simp [hashAnswer, htrim]
      rw [hred, if_neg (by simp [hbeq])]
      refine ⟨?_, fun htrue => ?_, fun _ => ⟨rfl, rfl⟩, rfl⟩
      · simp [htrim]
      · simp at htrue
    · by_cases hok : sha256hex (normalizeAnswer answer) = h
      · have hbeq : (hashAnswer (jsTrim answer) == some h) = true := by
          simp [hashAnswer, htrim, normalizeAnswer_jsTrim, hok]
        rw [hred, if_pos hbeq]
        refine ⟨?_, fun _ => ⟨rfl, rfl⟩, fun hfalse => ?_, rfl⟩
        · simp [hok, htrim]
        · simp at hfalse
      · have hbeq : (hashAnswer (jsTrim answer) == some h) = false := by
          simp [hashAnswer, htrim, normalizeAnswer_jsTrim, hok]
        rw [hred, if_neg (by simp [hbeq])]
        refine ⟨?_, fun htrue => ?_, fun _ => ⟨rfl, rfl⟩, rfl⟩
        · simp [hok]
        · simp at htrue

def c1Cfg : SecurityConfig where
  question := some "capital of France?"
  correctAnswerHash := some (sha256hex "paris")
  correctDateHash := none

def c1Letter : Letter where
  content := "hello"
  receiverEmail := ""
  receiverName := ""
  status := "unread"
  readAt := none
  createdAt := 0
  updatedAt := 0
  introductory := some "My intro"
  mainBody := none
  closing := none
  securityType := some "quiz"
  securityConfig := some c1Cfg
  accessToken := none
  shareableLink := none
  reaction := none
  reactionSubmittedAt := none
  emailSent := none
  emailSentTo := none
  emailSentAt := none
  emailScheduled := none
  scheduledDateTime := none
  userId := none

theorem c1_validate_security_witness :
    (validateSecurity 99 (some c1Letter) [] "L1" "  PARIS  ").isCorrect =
      some true ∧
    (validateSecurity 99 (some c1Letter) [] "L1" "  PARIS  ").letter =
      some { c1Letter with status := "read", readAt := some 99 } ∧
    (validateSecurity 99 (some c1Letter) [] "L1" "  PARIS  ").notifications =
      [] ++ [readNotification 99 "L1" c1Letter] := by
  have hthm := c1_validate_security 99 c1Letter [] "L1" "  PARIS  " "quiz"
    c1Cfg (sha256hex "paris") rfl (Or.inl rfl) rfl rfl (by decide) (by decide)
  have hcorrect :
      (validateSecurity 99 (some c1Letter) [] "L1" "  PARIS  ").isCorrect =
        some true :=
    hthm.1.mpr ⟨by decide, by decide⟩
  exact ⟨hcorrect, (hthm.2.1 hcorrect).1, (hthm.2.1 hcorrect).2⟩

def c1DateLetter : Letter :=
  { c1Letter with
    securityType := some "date",
    securityConfig := some
      { question := none, correctAnswerHash := none,
        correctDateHash := some
          "e3b0c44298fc1c149afbf4c8996fb92427ae41e4649b934ca495991b7852b855" } }

/-- C1 as stated is false at this input: the letter has securityType 'date'
and a stored answer hash equal to the SHA-256 digest of the empty string;
the submitted answer " " normalises to "", whose SHA-256 digest equals the
stored hash, so the claim requires isCorrect = true — but the route answers
isCorrect = false, because for 'date' the answer is trimmed first and
`hashAnswer` maps the now-falsy empty string to null instead of hashing
it. -/
theorem c1_counterexample :
    sha256hex (normalizeAnswer " ") =
      "e3b0c44298fc1c149afbf4c8996fb92427ae41e4649b934ca495991b7852b855" ∧
    (c1DateLetter.securityConfig.map SecurityConfig.correctDateHash) =
      some (some
        "e3b0c44298fc1c149afbf4c8996fb92427ae41e4649b934ca495991b7852b855") ∧
    (validateSecurity 0 (some c1DateLetter) [] "L1" " ").isCorrect =
      some false :=
  ⟨by decide, rfl, by decide⟩

/-! ## Reaction write-once (C9) -/

theorem updShareableLink_reaction (body : UpdateLetterBody) (l : Letter) :
    (updShareableLink body l).reaction = l.reaction ∧
    (updShareableLink body l).reactionSubmittedAt = l.reactionSubmittedAt := by
  cases h : body.shareableLink <;> simp [updShareableLink, h]

theorem updEmailSent_reaction (now : Int) (body : UpdateLetterBody)
    (l : Letter) :
    (updEmailSent now body l).reaction = l.reaction ∧
    (updEmailSent now body l).reactionSubmittedAt =
      l.reactionSubmittedAt := by
  cases h : body.emailSent with
  | none => simp [updEmailSent, h]
  | some b => simp [updEmailSent, h, apply_ite]

theorem updEmailScheduled_reaction (body : UpdateLetterBody) (l : Letter) :
    (updEmailScheduled body l).reaction = l.reaction ∧
    (updEmailScheduled body l).reactionSubmittedAt =
      l.reactionSubmittedAt := by
  cases h : body.emailScheduled <;> simp [updEmailScheduled, h]

theorem updSchedDate_reaction (body : UpdateLetterBody) (l : Letter) :
    (updSchedDate body l).reaction = l.reaction ∧
    (updSchedDate body l).reactionSubmittedAt = l.reactionSubmittedAt := by
  cases h : body.scheduledDateTime <;> simp [updSchedDate, h]

theorem updContent_reaction (body : UpdateLetterBody) (letter l : Letter) :
    (updContent body letter l).reaction = l.reaction ∧
    (updContent body letter l).reactionSubmittedAt =
      l.reactionSubmittedAt := by
  unfold updContent
  by_cases hc : (body.introductory.isSome || body.mainBody.isSome ||
      body.closing.isSome) = true
  · rw [if_pos hc]
    cases body.introductory <;> cases body.mainBody <;>
      cases body.closing <;> simp
  · rw [if_neg hc]
    cases body.content <;> simp

theorem updReaction_reaction (now : Int) (letter : Letter)
    (body : UpdateLetterBody) (l : Letter) (r : String)
    (hr : body.reaction = some r) :
    ((updReaction now letter body l).reaction,
     (updReaction now letter body l).reactionSubmittedAt) =
      (if jsTruthyStr letter.reaction then (l.reaction, l.reactionSubmittedAt)
       else (some r, some now)) := by
  by_cases ht : jsTruthyStr letter.reaction = true
  · simp [updReaction, hr, ht]
  · rw [if_neg ht]
    simp [updReaction, hr, ht]

theorem applyLetterUpdates_reaction (now : Int) (letter : Letter)
    (body : UpdateLetterBody) (r : String) (hr : body.reaction = some r) :
    ((applyLetterUpdates now letter body).reaction,
     (applyLetterUpdates now letter body).reactionSubmittedAt) =
      (if jsTruthyStr letter.reaction then
        (letter.reaction, letter.reactionSubmittedAt)
       else (some r, some now)) := by
  unfold applyLetterUpdates
  obtain ⟨hcr, hct⟩ := updContent_reaction body letter
    (updReaction now letter body
      (updSchedDate body
        (updEmailScheduled body
          (updEmailSent now body
            (updShareableLink body { letter with updatedAt := now })))))
  rw [hcr, hct]
  rw [updReaction_reaction now letter body _ r hr]
  obtain ⟨h4r, h4t⟩ := updSchedDate_reaction body
    (updEmailScheduled body
      (updEmailSent now body
        (updShareableLink body { letter with updatedAt := now })))
  obtain ⟨h3r, h3t⟩ := updEmailScheduled_reaction body
    (updEmailSent now body
      (updShareableLink body { letter with updatedAt := now }))
  obtain ⟨h2r, h2t⟩ := updEmailSent_reaction now body
    (updShareableLink body { letter with updatedAt := now })
  obtain ⟨h1r, h1t⟩ := updShareableLink_reaction body
    { letter with updatedAt := now }
  rw [h4r, h4t, h3r, h3t, h2r, h2t, h1r, h1t]

theorem updateLetter_eq_nosched (now : Int) (letter : Letter)
    (se : List (String × ScheduledEmail)) (body : UpdateLetterBody)
    (h : body.scheduledDateTime = none) :
    updateLetter now (some letter) se body =
      ⟨200, some (applyLetterUpdates now letter body), se⟩ := by
  unfold updateLetter
  simp only [h]

theorem updateLetter_eq_invalid (now : Int) (letter : Letter)
    (se : List (String × ScheduledEmail)) (body : UpdateLetterBody)
    (d : JsDate) (h : body.scheduledDateTime = some d)
    (hd : d.parsed = none) :
    updateLetter now (some letter) se body = ⟨400, some letter, se⟩ := by
  unfold updateLetter
  simp only [h, hd]

theorem updateLetter_eq_past (now : Int) (letter : Letter)
    (se : List (String × ScheduledEmail)) (body : UpdateLetterBody)
    (d : JsDate) (t : Int) (h : body.scheduledDateTime = some d)
    (hd : d.parsed = some t) (ht : t ≤ now) :
    updateLetter now (some letter) se body = ⟨400, some letter, se⟩ := by
  unfold updateLetter
  simp only [h, hd, if_pos ht]

theorem updateLetter_eq_valid (now : Int) (letter : Letter)
    (se : List (String × ScheduledEmail)) (body : UpdateLetterBody)
    (d : JsDate) (t : Int) (h : body.scheduledDateTime = some d)
    (hd : d.parsed = some t) (ht : ¬ t ≤ now) :
    updateLetter now (some letter) se body =
      ⟨200, some (applyLetterUpdates now letter body),
       retimeMatchingScheduledEmail now t letter body se⟩ := by
  unfold updateLetter
  simp only [h, hd, if_neg ht]

/-- C9: PUT /:userId/:letterId never overwrites a stored truthy reaction —
whatever reaction the body carries, the letter keeps its `reaction` and
`reactionSubmittedAt`; when the stored letter has no truthy reaction and
the update goes through (HTTP 200), the submitted reaction is written with
its timestamp. -/
theorem c9_reaction_write_once
    (now : Int) (letter : Letter)
    (scheduledEmails : List (String × ScheduledEmail))
    (body : UpdateLetterBody) (r : String)
    (hr : body.reaction = some r) :
    (jsTruthyStr letter.reaction = true →
      ((updateLetter now (some letter) scheduledEmails body).letter).map
          (fun l => (l.reaction, l.reactionSubmittedAt)) =
        some (letter.reaction, letter.reactionSubmittedAt)) ∧
    (jsTruthyStr letter.reaction = false →
      (updateLetter now (some letter) scheduledEmails body).httpStatus =
        200 →
      ((updateLetter now (some letter) scheduledEmails body).letter).map
          (fun l => (l.reaction, l.reactionSubmittedAt)) =
        some (some r, some now)) := by
  constructor
  · intro htruthy
    cases hsch : body.scheduledDateTime with
    | none =>
      rw [updateLetter_eq_nosched now letter scheduledEmails body hsch]
      simp only [Option.map]
      rw [show ((applyLetterUpdates now letter body).reaction,
          (applyLetterUpdates now letter body).reactionSubmittedAt) =
          (letter.reaction, letter.reactionSubmittedAt) by
        rw [applyLetterUpdates_reaction now letter body r hr, if_pos htruthy]]
    | some d =>
      cases hd : d.parsed with
      | none =>
        rw [updateLetter_eq_invalid now letter scheduledEmails body d hsch hd]
        rfl
      | some t =>
        by_cases hts : t ≤ now
        · rw [updateLetter_eq_past now letter scheduledEmails body d t hsch
            hd hts]
          rfl
        · rw [updateLetter_eq_valid now letter scheduledEmails body d t hsch
            hd hts]
          simp only [Option.map]
          rw [show ((applyLetterUpdates now letter body).reaction,
              (applyLetterUpdates now letter body).reactionSubmittedAt) =
              (letter.reaction, letter.reactionSubmittedAt) by
            rw [applyLetterUpdates_reaction now letter body r hr,
              if_pos htruthy]]
  · intro hfalsy hstatus
    cases hsch : body.scheduledDateTime with
    | none =>
      rw [updateLetter_eq_nosched now letter scheduledEmails body hsch]
      simp only [Option.map]
      rw [show ((applyLetterUpdates now letter body).reaction,
          (applyLetterUpdates now letter body).reactionSubmittedAt) =
          (some r, some now) by
        rw [applyLetterUpdates_reaction now letter body r hr,
          if_neg (by simp [hfalsy])]]
    | some d =>
      cases hd : d.parsed with
      | none =>
        rw [updateLetter_eq_invalid now letter scheduledEmails body d hsch
          hd] at hstatus
        simp at hstatus
      | some t =>
        by_cases hts : t ≤ now
        · rw [updateLetter_eq_past now letter scheduledEmails body d t hsch
            hd hts] at hstatus
          simp at hstatus
        · rw [updateLetter_eq_valid now letter scheduledEmails body d t hsch
            hd hts]
          simp only [Option.map]
          rw [show ((applyLetterUpdates now letter body).reaction,
              (applyLetterUpdates now letter body).reactionSubmittedAt) =
              (some r, some now) by
            rw [applyLetterUpdates_reaction now letter body r hr,
              if_neg (by simp [hfalsy])]]

def c9Letter : Letter where
  content := "hello"
  receiverEmail := ""
  receiverName := ""
  status := "unread"
  readAt := none
  createdAt := 0
  updatedAt := 0
  introductory := none
  mainBody := none
  closing := none
  securityType := none
  securityConfig := none
  accessToken := none
  shareableLink := none
  reaction := some "first"
  reactionSubmittedAt := some 1
  emailSent := none
  emailSentTo := none
  emailSentAt := none
  emailScheduled := none
  scheduledDateTime := none
  userId := none

def c9Body : UpdateLetterBody where
  content := none
  introductory := none
  mainBody := none
  closing := none
  shareableLink := none
  reaction := some "second"
  emailSent := none
  emailSentTo := none
  emailScheduled := none
  scheduledDateTime := none

theorem c9_reaction_write_once_witness :
    (((updateLetter 5 (some c9Letter) [] c9Body).letter).map
        (fun l => (l.reaction, l.reactionSubmittedAt)) =
      some (c9Letter.reaction, c9Letter.reactionSubmittedAt)) ∧
    (((updateLetter 5 (some { c9Letter with
          reaction := none, reactionSubmittedAt := none }) []
          c9Body).letter).map
        (fun l => (l.reaction, l.reactionSubmittedAt)) =
      some (some "second", some 5)) :=
  ⟨(c9_reaction_write_once 5 c9Letter [] c9Body "second" rfl).1 (by decide),
   (c9_reaction_write_once 5
      { c9Letter with reaction := none, reactionSubmittedAt := none } []
      c9Body "second" rfl).2 (by decide) (by decide)⟩

/-- C10 (amended): POST /api/letter-email/send answers 400 — creating no
scheduledEmails record and handing nothing to the transporter — whenever a
*truthy* scheduledDateTime is an invalid date or not strictly in the
future; a falsy scheduledDateTime (empty string, 0) skips the validation
entirely and is sent immediately.  PUT /:userId/:letterId rejects any
provided scheduledDateTime that is invalid or not strictly in the future
with 400, leaving the letter and the scheduledEmails table unchanged. -/
theorem c10_sched_validation
    (now : Int) (freshId : String) (se : List (String × ScheduledEmail))
    (body : LetterEmailBody) (ub : UpdateLetterBody) (letter : Letter)
    (d : JsDate) :
    (body.scheduledDateTime = some d → d.truthy = true →
      (d.parsed = none ∨ ∃ t, d.parsed = some t ∧ t ≤ now) →
      letterEmailSend now freshId se body = ⟨400, se, []⟩) ∧
    (ub.scheduledDateTime = some d →
      (d.parsed = none ∨ ∃ t, d.parsed = some t ∧ t ≤ now) →
      updateLetter now (some letter) se ub = ⟨400, some letter, se⟩) := by
  constructor
  · intro hsch htr hbad
    unfold letterEmailSend
    by_cases hreq : (jsTruthyStr body.recipientEmail = true ∧
        jsTruthyStr body.shareableLink = true)
    · rw [if_neg (by simpa using hreq)]
      rcases hbad with hnone | ⟨t, hp, ht⟩
      · simp only [hsch, htr, hnone, if_true]
      · simp only [hsch, htr, hp, if_true, if_pos ht]
    · rw [if_pos (by simpa using hreq)]
  · intro hsch hbad
    rcases hbad with hnone | ⟨t, hp, ht⟩
    · exact updateLetter_eq_invalid now letter se ub d hsch hnone
    · exact updateLetter_eq_past now letter se ub d t hsch hp ht

def c10PostBody : LetterEmailBody where
  recipientEmail := some "r@x"
  recipientName := none
  senderName := none
  shareableLink := some "sl"
  letterTitle := none
  scheduledDateTime := some { truthy := true, parsed := none }

theorem c10_sched_validation_witness :
    (letterEmailSend 100 "f1" [] c10PostBody = ⟨400, [], []⟩) ∧
    (updateLetter 100 (some { c9Letter with reaction := none }) []
        { c9Body with
          reaction := none,
          scheduledDateTime := some { truthy := true, parsed := some 50 } } =
      ⟨400, some { c9Letter with reaction := none }, []⟩) :=
  ⟨(c10_sched_validation 100 "f1" [] c10PostBody c9Body c9Letter
      { truthy := true, parsed := none }).1 rfl rfl (Or.inl rfl),
   (c10_sched_validation 100 "f1" []
      c10PostBody
      { c9Body with
        reaction := none,
        scheduledDateTime := some { truthy := true, parsed := some 50 } }
      { c9Letter with reaction := none }
      { truthy := true, parsed := some 50 }).2 rfl
      (Or.inr ⟨50, rfl, by decide⟩)⟩

/-- C10 as stated is false at this input: the empty-string
scheduledDateTime is an invalid date, but it is falsy, so the POST /send
validation is skipped entirely — the handler answers 200 and hands the
email to the transporter immediately instead of answering 400 and sending
nothing. -/
theorem c10_counterexample :
    letterEmailSend 100 "f1" []
      { recipientEmail := some "r@x", recipientName := none,
        senderName := none, shareableLink := some "sl", letterTitle := none,
        scheduledDateTime := some { truthy := false, parsed := none } } =
      { httpStatus := 200, scheduledEmails := [], sentNow := ["r@x"] } := by
  decide

/-- C7 (amended): after PUT /:userId/all/read, every notification passes
the route's already-read test — those not yet read get boolean `read = true`
with a `readAt` stamp, while one stored as the string "true" is left with
that string value; `updatedCount` equals the number of notifications whose
`read` was not already boolean true or string "true" at scan time. -/
theorem c7_mark_all_read (now : Int) (ns : List (String × Notification)) :
    ((markAllRead now ns).1 = ns.map (fun p =>
      if isReadVal p.2.read then p
      else (p.1, { p.2 with
                   read := JsVal.bool true, readAt := some now }))) ∧
    ((markAllRead now ns).2 =
      (ns.filter (fun p => !isReadVal p.2.read)).length) ∧
    (∀ p ∈ (markAllRead now ns).1, isReadVal p.2.read = true) := by
  induction ns with
  | nil => exact ⟨rfl, rfl, by intro p hp; cases hp⟩
  | cons q t ih =>
    obtain ⟨ih1, ih2, ih3⟩ := ih
    by_cases hq : isReadVal q.2.read = true
    · refine ⟨?_, ?_, ?_⟩
      · simp only [markAllRead, List.foldr_cons, hq, if_true, List.map_cons]
        simpa [markAllRead] using ih1
      · have ih2' := ih2
        simp only [markAllRead] at ih2'
        simp only [markAllRead, List.foldr_cons, hq, if_true, List.filter,
          Bool.not_true]
        exact ih2'
      · intro p hp
        simp only [markAllRead, List.foldr_cons, hq, if_true,
          List.mem_cons] at hp
        rcases hp with rfl | hp
        · exact hq
        · exact ih3 p (by simpa [markAllRead] using hp)
    · have hq' : isReadVal q.2.read = false := by
        simpa using hq
      refine ⟨?_, ?_, ?_⟩
      · simp only [markAllRead, List.foldr_cons, hq', List.map_cons,
          if_false, Bool.false_eq_true]
        simpa [markAllRead] using ih1
      · have ih2' := ih2
        simp only [markAllRead] at ih2'
        simp only [markAllRead, List.foldr_cons, hq', List.filter,
          Bool.false_eq_true, if_false, Bool.not_false, List.length_cons]
        omega
      · intro p hp
        simp only [markAllRead, List.foldr_cons, hq', Bool.false_eq_true,
          if_false, List.mem_cons] at hp
        rcases hp with rfl | hp
        · simp [isReadVal]
        · exact ih3 p (by simpa [markAllRead] using hp)

def c7Str : Notification where
  ntype := "letter_read"
  letterId := none
  letterTitle := none
  message := "m"
  read := JsVal.str "true"
  readAt := none
  createdAt := 0

def c7Unread : Notification :=
  { c7Str with read := JsVal.bool false }

theorem c7_mark_all_read_witness :
    ((markAllRead 5 [("n1", c7Str), ("n2", c7Unread)]).2 =
      ([("n1", c7Str), ("n2", c7Unread)].filter
        (fun p => !isReadVal p.2.read)).length) ∧
    (isReadVal
      (({ c7Unread with read := JsVal.bool true, readAt := some 5 }
        : Notification)).read = true) :=
  ⟨(c7_mark_all_read 5 [("n1", c7Str), ("n2", c7Unread)]).2.1,
   (c7_mark_all_read 5 [("n1", c7Str), ("n2", c7Unread)]).2.2
     ("n2", { c7Unread with read := JsVal.bool true, readAt := some 5 })
     (by decide)⟩

/-- C7 as stated is false at this input: a notification whose read field is
the string "true" is skipped as already-read and keeps the string value, so
after the route completes this user still has a notification whose read is
not (strictly) the boolean true. -/
theorem c7_counterexample :
    (markAllRead 5 [("n1", c7Str)]).1 = [("n1", c7Str)] ∧
    c7Str.read ≠ JsVal.bool true := by
  decide

/-! ## Scheduler lemmas (C4, C5) -/

theorem sendScheduledEmail_lookup_ne (sr : String → Option String)
    (now : Int) (id : String) (em : ScheduledEmail)
    (st : List (String × ScheduledEmail)) (k : String) (hk : k ≠ id) :
    (sendScheduledEmail sr now id em st).1.lookup k = st.lookup k := by
  unfold sendScheduledEmail
  split
  · rfl
  · cases hsr : sr id with
    | none =>
      simp only [hsr]
      rw [lookup_removeAt_ne _ _ _ hk, lookup_updateAt_ne _ _ _ _ hk]
    | some msg =>
      simp only [hsr]
      rw [lookup_updateAt_ne _ _ _ _ hk, lookup_updateAt_ne _ _ _ _ hk]

theorem sendScheduledEmail_lookup_success (sr : String → Option String)
    (now : Int) (id : String) (em : ScheduledEmail)
    (st : List (String × ScheduledEmail)) (t : Int)
    (hsched : em.scheduledDateTime = some t) (hle : t ≤ now)
    (hsr : sr id = none) :
    (sendScheduledEmail sr now id em st).1.lookup id = none := by
  have hc : decide (now < t) = false := decide_eq_false (by omega)
  unfold sendScheduledEmail
  simp only [hsched, hc, Bool.false_eq_true, if_false, hsr]
  exact lookup_removeAt_self _ _

theorem sendScheduledEmail_lookup_failure (sr : String → Option String)
    (now : Int) (id : String) (em : ScheduledEmail)
    (st : List (String × ScheduledEmail)) (t : Int) (msg : String)
    (hsched : em.scheduledDateTime = some t) (hle : t ≤ now)
    (hsr : sr id = some msg) (hst : st.lookup id = some em) :
    (sendScheduledEmail sr now id em st).1.lookup id =
      some { em with
        status := "failed", sendingStartedAt := some now,
        error := some msg, failedAt := some now } := by
  have hc : decide (now < t) = false := decide_eq_false (by omega)
  unfold sendScheduledEmail
  simp only [hsched, hc, Bool.false_eq_true, if_false, hsr]
  rw [lookup_updateAt_self, lookup_updateAt_self, hst]
  simp [hsched]

theorem sendScheduledEmail_events_due (sr : String → Option String)
    (now : Int) (id : String) (em : ScheduledEmail)
    (st : List (String × ScheduledEmail)) (t : Int)
    (hsched : em.scheduledDateTime = some t) (hle : t ≤ now) :
    (sendScheduledEmail sr now id em st).2 = [SendEvent.send id] := by
  have hc : decide (now < t) = false := decide_eq_false (by omega)
  unfold sendScheduledEmail
  simp only [hsched, hc, Bool.false_eq_true, if_false]
  cases sr id <;> rfl

theorem processScheduled_lookup_of_not_mem (sr : String → Option String)
    (now : Int) (l : List (String × ScheduledEmail)) (k : String) :
    ∀ (st : List (String × ScheduledEmail)), (∀ p ∈ l, p.1 ≠ k) →
      (processScheduled sr now l st).1.lookup k = st.lookup k := by
  induction l with
  | nil =>
    intro st _
    rfl
  | cons p rest ih =>
    intro st hk
    obtain ⟨id, em⟩ := p
    simp only [processScheduled]
    rw [ih _ (fun q hq => hk q (List.mem_cons_of_mem _ hq))]
    exact sendScheduledEmail_lookup_ne sr now id em st k
      (Ne.symm (hk (id, em) (List.mem_cons_self _ _)))

theorem processScheduled_events (sr : String → Option String) (now : Int)
    (l : List (String × ScheduledEmail)) :
    ∀ (st : List (String × ScheduledEmail)),
      (∀ p ∈ l, ∃ t, p.2.scheduledDateTime = some t ∧ t ≤ now) →
      (processScheduled sr now l st).2 =
        (l.map (fun e => [SendEvent.send e.1,
          SendEvent.delay 1000])).flatten := by
  induction l with
  | nil =>
    intro st _
    rfl
  | cons p rest ih =>
    intro st hdue
    obtain ⟨id, em⟩ := p
    obtain ⟨t, hsched, hle⟩ := hdue (id, em) (List.mem_cons_self _ _)
    simp only [processScheduled, List.map_cons, List.flatten_cons]
    rw [sendScheduledEmail_events_due sr now id em st t hsched hle]
    rw [ih _ (fun q hq => hdue q (List.mem_cons_of_mem _ hq))]
    rfl

theorem processScheduled_lookup_success (sr : String → Option String)
    (now : Int) (l : List (String × ScheduledEmail)) (id : String)
    (em : ScheduledEmail) (t : Int)
    (hsched : em.scheduledDateTime = some t) (hle : t ≤ now)
    (hsr : sr id = none) :
    ∀ (st : List (String × ScheduledEmail)),
      (l.map Prod.fst).Nodup → (id, em) ∈ l →
      (processScheduled sr now l st).1.lookup id = none := by
  induction l with
  | nil =>
    intro st _ hmem
    cases hmem
  | cons p rest ih =>
    intro st hnd hmem
    obtain ⟨id', em'⟩ := p
    simp only [List.map_cons, List.nodup_cons] at hnd
    rcases List.mem_cons.mp hmem with heq | hmem'
    · obtain ⟨h1, h2⟩ : id = id' ∧ em = em' := by
        injection heq with h1 h2
        exact ⟨h1, h2⟩
      subst h1
      subst h2
      simp only [processScheduled]
      rw [processScheduled_lookup_of_not_mem sr now rest id _
        (fun q hq hqk => hnd.1 (hqk ▸ List.mem_map.mpr ⟨q, hq, rfl⟩))]
      exact sendScheduledEmail_lookup_success sr now id em st t hsched hle
        hsr
    · have hne : id' ≠ id := by
        intro hcontra
        exact hnd.1 (hcontra ▸ List.mem_map.mpr ⟨(id, em), hmem', rfl⟩)
      simp only [processScheduled]
      exact ih (sendScheduledEmail sr now id' em' st).1 hnd.2 hmem'

theorem processScheduled_lookup_failure (sr : String → Option String)
    (now : Int) (l : List (String × ScheduledEmail)) (id : String)
    (em : ScheduledEmail) (t : Int) (msg : String)
    (hsched : em.scheduledDateTime = some t) (hle : t ≤ now)
    (hsr : sr id = some msg) :
    ∀ (st : List (String × ScheduledEmail)),
      (l.map Prod.fst).Nodup → (id, em) ∈ l → st.lookup id = some em →
      (processScheduled sr now l st).1.lookup id =
        some { em with
          status := "failed", sendingStartedAt := some now,
          error := some msg, failedAt := some now } := by
  induction l with
  | nil =>
    intro st _ hmem
    cases hmem
  | cons p rest ih =>
    intro st hnd hmem hst
    obtain ⟨id', em'⟩ := p
    simp only [List.map_cons, List.nodup_cons] at hnd
    rcases List.mem_cons.mp hmem with heq | hmem'
    · obtain ⟨h1, h2⟩ : id = id' ∧ em = em' := by
        injection heq with h1 h2
        exact ⟨h1, h2⟩
      subst h1
      subst h2
      simp only [processScheduled]
      rw [processScheduled_lookup_of_not_mem sr now rest id _
        (fun q hq hqk => hnd.1 (hqk ▸ List.mem_map.mpr ⟨q, hq, rfl⟩))]
      exact sendScheduledEmail_lookup_failure sr now id em st t msg hsched
        hle hsr hst
    · have hne : id' ≠ id := by
        intro hcontra
        exact hnd.1 (hcontra ▸ List.mem_map.mpr ⟨(id, em), hmem', rfl⟩)
      simp only [processScheduled]
      refine ih (sendScheduledEmail sr now id' em' st).1 hnd.2 hmem' ?_
      rw [sendScheduledEmail_lookup_ne sr now id' em' st id (Ne.symm hne)]
      exact hst

theorem dueFilter_iff (now buffer : Int) (p : String × ScheduledEmail) :
    dueFilter now buffer p = true ↔
      (p.2.status = "pending" ∧
        ∃ t, p.2.scheduledDateTime = some t ∧ buffer ≤ now - t) := by
  unfold dueFilter
  cases hs : p.2.scheduledDateTime with
  | none => simp [hs]
  | some t => simp [hs, beq_iff_eq, ge_iff_le]

/-- C4: one cron tick selects exactly the pending records with a valid
`scheduledDateTime` at least the buffer (10 s regular, 60 s startup) in the
past; the selected records are sent sequentially with a fixed 1000 ms pause
after each send, each is deleted when the transporter succeeds and marked
status "failed" with the error message when it throws, and unselected
records are untouched. -/
theorem c4_scheduler_tick (sr : String → Option String) (isStartup : Bool)
    (now : Int) (st : List (String × ScheduledEmail))
    (hnd : (st.map Prod.fst).Nodup) :
    (∀ id em,
      (id, em) ∈ st.filter (dueFilter now (minBufferFor isStartup)) ↔
        ((id, em) ∈ st ∧ em.status = "pending" ∧
          ∃ t, em.scheduledDateTime = some t ∧
            minBufferFor isStartup ≤ now - t)) ∧
    (∀ id em t, (id, em) ∈ st → em.status = "pending" →
      em.scheduledDateTime = some t → minBufferFor isStartup ≤ now - t →
      sr id = none →
      (checkAndSendScheduledEmails sr isStartup now st).1.lookup id =
        none) ∧
    (∀ id em t msg, (id, em) ∈ st → em.status = "pending" →
      em.scheduledDateTime = some t → minBufferFor isStartup ≤ now - t →
      sr id = some msg →
      (checkAndSendScheduledEmails sr isStartup now st).1.lookup id =
        some { em with
          status := "failed", sendingStartedAt := some now,
          error := some msg, failedAt := some now }) ∧
    (∀ id, (∀ em, (id, em) ∈ st →
        dueFilter now (minBufferFor isStartup) (id, em) = false) →
      (checkAndSendScheduledEmails sr isStartup now st).1.lookup id =
        st.lookup id) ∧
    ((checkAndSendScheduledEmails sr isStartup now st).2 =
      ((st.filter (dueFilter now (minBufferFor isStartup))).map
        (fun e => [SendEvent.send e.1, SendEvent.delay 1000])).flatten) := by
  have hbuf : 0 < minBufferFor isStartup := by
    cases isStartup <;> decide
  have hnd' : ((st.filter
      (dueFilter now (minBufferFor isStartup))).map Prod.fst).Nodup :=
    hnd.sublist ((List.filter_sublist st).map Prod.fst)
  refine ⟨?_, ?_, ?_, ?_, ?_⟩
  · intro id em
    rw [List.mem_filter, dueFilter_iff]
  · intro id em t hmem hpend hsched hdiff hsr
    have hle : t ≤ now := by omega
    exact processScheduled_lookup_success sr now _ id em t hsched hle hsr st
      hnd' (List.mem_filter.mpr ⟨hmem,
        (dueFilter_iff now _ (id, em)).mpr ⟨hpend, t, hsched, hdiff⟩⟩)
  · intro id em t msg hmem hpend hsched hdiff hsr
    have hle : t ≤ now := by omega
    exact processScheduled_lookup_failure sr now _ id em t msg hsched hle
      hsr st hnd' (List.mem_filter.mpr ⟨hmem,
        (dueFilter_iff now _ (id, em)).mpr ⟨hpend, t, hsched, hdiff⟩⟩)
      (lookup_eq_of_mem st id em hnd hmem)
  · intro id hnone
    refine processScheduled_lookup_of_not_mem sr now _ id st ?_
    intro p hp hpk
    obtain ⟨pk, pv⟩ := p
    have hpk' : pk = id := hpk
    subst hpk'
    have hmem := (List.mem_filter.mp hp).1
    have hdue := (List.mem_filter.mp hp).2
    rw [hnone pv hmem] at hdue
    cases hdue
  · refine processScheduled_events sr now _ st ?_
    intro p hp
    obtain ⟨hpend, t, hsched, hdiff⟩ :=
      (dueFilter_iff now _ p).mp (List.mem_filter.mp hp).2
    exact ⟨t, hsched, by omega⟩

def c4Em : ScheduledEmail where
  recipientEmail := "a@x"
  recipientName := "A"
  senderName := "S"
  letterTitle := "T"
  shareableLink := "l1"
  mailOptions := "m1"
  scheduledDateTime := some 0
  status := "pending"
  createdAt := none
  updatedAt := none
  error := none
  sendingStartedAt := none
  failedAt := none

def c4EmB : ScheduledEmail :=
  { c4Em with recipientEmail := "b@x", shareableLink := "l2" }

def c4Fut : ScheduledEmail :=
  { c4Em with scheduledDateTime := some 1000000000 }

def c4St : List (String × ScheduledEmail) :=
  [("e1", c4Em), ("e2", c4EmB), ("e3", c4Fut)]

def c4Sr : String → Option String :=
  fun i => if i == "e2" then some "boom" else none

theorem c4_scheduler_tick_witness :
    ((checkAndSendScheduledEmails c4Sr false 200000 c4St).1.lookup "e1" =
      none) ∧
    ((checkAndSendScheduledEmails c4Sr false 200000 c4St).1.lookup "e2" =
      some { c4EmB with
        status := "failed", sendingStartedAt := some 200000,
        error := some "boom", failedAt := some 200000 }) ∧
    ((checkAndSendScheduledEmails c4Sr false 200000 c4St).1.lookup "e3" =
      c4St.lookup "e3") ∧
    ((checkAndSendScheduledEmails c4Sr false 200000 c4St).2 =
      ((c4St.filter (dueFilter 200000 (minBufferFor false))).map
        (fun e => [SendEvent.send e.1, SendEvent.delay 1000])).flatten) := by
  have h := c4_scheduler_tick c4Sr false 200000 c4St (by decide)
  refine ⟨h.2.1 "e1" c4Em 0 (by decide) rfl rfl (by decide) rfl,
    h.2.2.1 "e2" c4EmB 0 "boom" (by decide) rfl rfl (by decide) rfl,
    h.2.2.2.1 "e3" ?_, h.2.2.2.2⟩
  intro em hm
  simp only [c4St, List.mem_cons, List.not_mem_nil, or_false] at hm
  rcases hm with hm | hm | hm
  · exact absurd (congrArg Prod.fst hm) (by simp)
  · exact absurd (congrArg Prod.fst hm) (by simp)
  · have hem : em = c4Fut := congrArg Prod.snd hm
    subst hem
    decide

theorem vercelDue_iff (now : Int) (p : String × ScheduledEmail) :
    vercelDue now p = true ↔
      (p.2.status = "pending" ∧ ∃ t, p.2.scheduledDateTime = some t ∧
        t - now ≤ 60000 ∧ -60000 ≤ t - now) := by
  unfold vercelDue
  cases hs : p.2.scheduledDateTime with
  | none => simp [hs]
  | some t => simp [hs, beq_iff_eq]

def c5Em : ScheduledEmail where
  recipientEmail := "a@x"
  recipientName := "A"
  senderName := "S"
  letterTitle := "T"
  shareableLink := "l1"
  mailOptions := "m1"
  scheduledDateTime := some 0
  status := "pending"
  createdAt := none
  updatedAt := none
  error := none
  sendingStartedAt := none
  failedAt := none

/-- C5 as stated is false at this input: with one pending email 200 s
overdue, the node-cron tick selects it while the Vercel cron handler —
whose window stops 60 s after the scheduled time — selects nothing, so the
two entry points do not compute the same selection. -/
theorem c5_counterexample :
    ¬ ([("e1", c5Em)].filter (dueFilter 200000 (minBufferFor false)) =
        vercelEmailsToSend 200000 [("e1", c5Em)]) := by
  decide

/-- C5 (amended): the two cron entry points run separate copies of the
polling logic; the per-email send-and-record step is identical, but the
selection filters differ — node-cron takes pending emails at least 10 s
overdue with no upper bound, the Vercel handler takes pending emails within
60 s of their scheduled time on either side; the two agree exactly on
pending emails 10-60 s overdue, and an email more than 60 s overdue is
selected only by the node-cron job. -/
theorem c5_selection_windows (now : Int) (p : String × ScheduledEmail) :
    (vercelSendScheduledEmail = sendScheduledEmail) ∧
    ((dueFilter now (minBufferFor false) p = true ∧
        vercelDue now p = true) ↔
      (p.2.status = "pending" ∧ ∃ t, p.2.scheduledDateTime = some t ∧
        10000 ≤ now - t ∧ now - t ≤ 60000)) ∧
    (∀ t, p.2.scheduledDateTime = some t → p.2.status = "pending" →
      60000 < now - t →
      dueFilter now (minBufferFor false) p = true ∧
        vercelDue now p = false) := by
  refine ⟨rfl, ?_, ?_⟩
  · rw [dueFilter_iff, vercelDue_iff]
    constructor
    · rintro ⟨⟨hp, t, hs, h1⟩, ⟨hp2, t2, hs2, h2, h3⟩⟩
      rw [hs] at hs2
      have ht2 : t = t2 := Option.some.inj hs2
      subst ht2
      have hb : (10000 : Int) ≤ now - t := by
        simpa [minBufferFor] using h1
      exact ⟨hp, t, hs, hb, by omega⟩
    · rintro ⟨hp, t, hs, h1, h2⟩
      exact ⟨⟨hp, t, hs, by simp [minBufferFor]; omega⟩,
        ⟨hp, t, hs, by omega, by omega⟩⟩
  · intro t hs hp hover
    constructor
    · rw [dueFilter_iff]
      exact ⟨hp, t, hs, by simp [minBufferFor]; omega⟩
    · unfold vercelDue
      rw [hs, hp]
      simp only [beq_self_eq_true, Bool.true_and]
      exact decide_eq_false (fun hc => by omega)

theorem c5_selection_windows_witness :
    (dueFilter 200000 (minBufferFor false) ("e1", c5Em) = true ∧
      vercelDue 200000 ("e1", c5Em) = false) ∧
    (dueFilter 30000 (minBufferFor false) ("e1", c5Em) = true ∧
      vercelDue 30000 ("e1", c5Em) = true) :=
  ⟨(c5_selection_windows 200000 ("e1", c5Em)).2.2 0 rfl rfl (by decide),
   ((c5_selection_windows 30000 ("e1", c5Em)).2.1).mpr
     ⟨rfl, 0, rfl, by decide, by decide⟩⟩

end Dearly